import Mathlib

/-!
Verification of the multi-technique extraction and confidence-ensembling
engine of this repository (`multi_technique_extractor_simple.py`,
`multi_technique_extractor.py`, `confidence_scorer.py`) against its
specification.

Modelling conventions for the shallow embedding:
* Python strings are Lean `String`, Python floats are `ℚ`, Python ints are
  `Nat`/`Int`.
* Python dicts are insertion-ordered association lists; `dict[k]` is
  `List.lookup` (keys built by the embedded code are unique, and all embedded
  iteration appends in insertion order, so `List.lookup` agrees with the dict).
* Python code that can raise is modelled with `Except Unit`; a `try/except`
  boundary is a `match` on that `Except`.
* The anchored validation regexes of the source are hand-compiled into
  executable character-list matchers; Python `re.match(p, s)` with an
  anchored pattern `^...$` also accepts one trailing newline before `$`,
  which `pyFullMatch` reproduces.
-/

namespace Spec2Proof

/-- Whitespace recognised by Python `str.strip()` / `str.split()` and by the
regex class `\s` (on the ASCII inputs modelled here). -/
def isWsChar (c : Char) : Bool := c.isWhitespace

/-- ASCII lower-casing of one character (Python `str.lower()` on the ASCII
inputs modelled here). -/
def lowerChar (c : Char) : Char :=
  if 'A' ≤ c && c ≤ 'Z' then Char.ofNat (c.toNat + 32) else c

/-- Python `str.strip()` with no argument: strip surrounding whitespace. -/
def pyStrip (s : String) : String :=
  String.mk (((s.toList.dropWhile isWsChar).reverse.dropWhile isWsChar).reverse)

/-- Python truthiness of a string: non-empty. -/
def pyTruthy (s : String) : Bool := s ≠ ""

/-- Python `str.lower()`. -/
def pyLower (s : String) : String := String.mk (s.toList.map lowerChar)

/-- Split a character list at every occurrence of `sep`, keeping empty
parts (the behaviour of Python `str.split(sep)` with an explicit
separator). -/
def splitOnChar (sep : Char) : List Char → List (List Char)
  | [] => [[]]
  | c :: rest =>
    let r := splitOnChar sep rest
    if c = sep then [] :: r
    else
      match r with
      | h :: t => (c :: h) :: t
      | [] => [[c]]

/-- Python `text.split(chr(10))`: split on newline, keeping empty parts. -/
def pySplitLines (s : String) : List String :=
  (splitOnChar '\n' s.toList).map String.mk

/-- Tokenizer of Python `str.split()` with no argument: maximal runs of
non-whitespace characters; `cur` holds the (reversed) run in progress. -/
def wsTokensAux (cur : List Char) : List Char → List (List Char)
  | [] => if cur.isEmpty then [] else [cur.reverse]
  | c :: rest =>
    if isWsChar c then
      if cur.isEmpty then wsTokensAux [] rest
      else cur.reverse :: wsTokensAux [] rest
    else wsTokensAux (c :: cur) rest

/-- Python `str.split()` with no argument: split on whitespace runs,
dropping empty parts. -/
def pySplitWs (s : String) : List String :=
  (wsTokensAux [] s.toList).map String.mk

/-- Position of the first occurrence of `needle` in `hay`
(Python `hay.find(needle)`), as `none` when absent. -/
def firstOccur (needle : List Char) : List Char → Option Nat
  | [] => if needle = [] then some 0 else none
  | c :: rest =>
    if needle.isPrefixOf (c :: rest) then some 0
    else (firstOccur needle rest).map (· + 1)

/-- Python substring test `needle in hay` on strings. -/
def pyIn (needle hay : String) : Bool :=
  (firstOccur needle.toList hay.toList).isSome

/-- Mean of a list of rationals (`statistics.mean`); junk value 0 on `[]`
(the embedded call sites all guard non-emptiness as the source does). -/
def listMean (l : List ℚ) : ℚ := l.sum / l.length

/-- Python `max(entries, key=value)` over an association list, maximising the
second component; Python `max` keeps the first element attaining the maximum.
Junk value `("", 0)` on `[]` (all embedded call sites guard non-emptiness). -/
def pyMaxEntry (l : List (String × Nat)) : String × Nat :=
  match l with
  | [] => ("", 0)
  | e :: es => es.foldl (fun best x => if best.2 < x.2 then x else best) e

/-- Python `round(x, 3)`: round half to even at the third decimal. -/
def pyRound3 (x : ℚ) : ℚ :=
  let y := x * 1000
  let n := ⌊y⌋
  let r := y - n
  let k : ℤ :=
    if r < 1/2 then n
    else if 1/2 < r then n + 1
    else if n % 2 = 0 then n else n + 1
  (k : ℚ) / 1000

/-- Comma-separated join (the shape of the interpolated list in the
missing-critical-fields log message). -/
def joinCommaSep : List String → String
  | [] => ""
  | [x] => x
  | x :: xs => x ++ ", " ++ joinCommaSep xs

/-- First-occurrence deduplication, preserving insertion order: the key order
of a Python dict or `Counter` built by repeated insertion. -/
def dedupFirstAux (seen : List String) : List String → List String
  | [] => []
  | x :: xs =>
    if x ∈ seen then dedupFirstAux seen xs
    else x :: dedupFirstAux (x :: seen) xs

/-- Key list of `collections.Counter(l)`: distinct elements of `l` in order of
first occurrence. -/
def dedupFirst (l : List String) : List String := dedupFirstAux [] l

/-! ### Hand-compiled regex character classes -/

/-- Regex class `[0-9]` (`\d`). -/
def isDigitChar (c : Char) : Bool := c.isDigit

/-- Regex class `[A-Z]`. -/
def isUpperAZ (c : Char) : Bool := ('A' ≤ c && c ≤ 'Z')

/-- Regex class `[a-z]`. -/
def isLowerAZ (c : Char) : Bool := ('a' ≤ c && c ≤ 'z')

/-- Regex class `[A-Za-z]`. -/
def isAlphaAZ (c : Char) : Bool := isUpperAZ c || isLowerAZ c

/-- Regex class `\w` (used for the word boundary `\b`): letters, digits and
underscore. -/
def isWordChar (c : Char) : Bool := isAlphaAZ c || isDigitChar c || c = '_'

/-- Python `re.match` of an anchored pattern `^core$`: `core` must consume the
whole string, except that `$` also matches just before one final newline. -/
def pyFullMatch (core : List Char → Bool) (s : String) : Bool :=
  let cs := s.toList
  core cs ||
    (match cs.getLast? with
     | some c => c = '\n' && core cs.dropLast
     | none => false)

/-- Split a character list into its maximal leading run satisfying `p` and
the rest. -/
def spanList (p : Char → Bool) (l : List Char) : List Char × List Char :=
  (l.takeWhile p, l.dropWhile p)

/-- Core of the SSN pattern `\d{3}-\d{2}-\d{4}` (anchored use). -/
def ssnCore (l : List Char) : Bool :=
  match l with
  | [a, b, c, h1, d, e, h2, f, g, h, i] =>
    [a, b, c, d, e, f, g, h, i].all isDigitChar && h1 = '-' && h2 = '-'
  | _ => false

/-- Core of the phone pattern `\(?\d{3}\)?[-.\s]?\d{3}[-.\s]?\d{4}`.
Each optional element is disjoint from the digit that follows it, so greedy
matching is deterministic. -/
def phoneCore (l : List Char) : Bool :=
  let l1 := match l with
    | c :: rest => if c = '(' then rest else l
    | [] => l
  match l1 with
  | a :: b :: c :: rest1 =>
    ([a, b, c].all isDigitChar) &&
    (let rest2 := match rest1 with
      | x :: r => if x = ')' then r else rest1
      | [] => rest1
     let rest3 := match rest2 with
      | x :: r => if x = '-' || x = '.' || isWsChar x then r else rest2
      | [] => rest2
     match rest3 with
     | d :: e :: f :: rest4 =>
       ([d, e, f].all isDigitChar) &&
       (let rest5 := match rest4 with
         | x :: r => if x = '-' || x = '.' || isWsChar x then r else rest4
         | [] => rest4
        match rest5 with
        | [g, h, i, j] => [g, h, i, j].all isDigitChar
        | _ => false)
     | _ => false)
  | _ => false

/-- Regex class `[A-Za-z0-9._%+-]` (email local part). -/
def isEmailLocalChar (c : Char) : Bool :=
  isAlphaAZ c || isDigitChar c || c = '.' || c = '_' || c = '%' || c = '+' || c = '-'

/-- Regex class `[A-Za-z0-9.-]` (email domain). -/
def isEmailDomainChar (c : Char) : Bool :=
  isAlphaAZ c || isDigitChar c || c = '.' || c = '-'

/-- Regex class `[A-Z|a-z]` (the source's TLD class, which literally contains
the bar character). -/
def isEmailTldChar (c : Char) : Bool := isAlphaAZ c || c = '|'

/-- Core of the email pattern
`[A-Za-z0-9._%+-]+@[A-Za-z0-9.-]+\.[A-Z|a-z]{2,}`: after the at sign, some
split `domain ++ dot ++ tld` must exist with a non-empty domain and a TLD of
length at least 2. -/
def emailCore (l : List Char) : Bool :=
  let (loc, rest) := spanList isEmailLocalChar l
  match loc, rest with
  | _ :: _, '@' :: dom =>
    (List.range dom.length).any (fun i =>
      dom.get? i = some '.' &&
      decide (1 ≤ i) &&
      (dom.take i).all isEmailDomainChar &&
      (let tld := dom.drop (i + 1)
       decide (2 ≤ tld.length) && tld.all isEmailTldChar))
  | _, _ => false

/-- Match a run of 2 to 4 uppercase letters followed by 3 to 8 digits and the
end (`[A-Z]{2,4}\d{3,8}`, anchored; classes are disjoint so runs are
deterministic). -/
def upperThenDigits (uLo uHi dLo dHi : Nat) (l : List Char) : Bool :=
  let (us, rest) := spanList isUpperAZ l
  let (ds, rest2) := spanList isDigitChar rest
  decide (uLo ≤ us.length) && decide (us.length ≤ uHi) &&
  decide (dLo ≤ ds.length) && decide (ds.length ≤ dHi) && rest2.isEmpty

/-- A run of exactly `lo ≤ n ≤ hi` digits and nothing else. -/
def allDigitsLen (lo hi : Nat) (l : List Char) : Bool :=
  l.all isDigitChar && decide (lo ≤ l.length) && decide (l.length ≤ hi)

/-- Core of `[A-Z]{2,4}\d{3,8}|\d{6,10}|EMP\d{3,8}` (employee id; the
alternation is anchored branch by branch in the source). -/
def employeeIdCore (l : List Char) : Bool :=
  upperThenDigits 2 4 3 8 l || allDigitsLen 6 10 l ||
    (match l with
     | 'E' :: 'M' :: 'P' :: ds => allDigitsLen 3 8 ds
     | _ => false)

/-- Core of `[A-Z]{2,3}\d{6,10}|POL\d{6,8}` (policy number). -/
def policyNumberCore (l : List Char) : Bool :=
  upperThenDigits 2 3 6 10 l ||
    (match l with
     | 'P' :: 'O' :: 'L' :: ds => allDigitsLen 6 8 ds
     | _ => false)

/-- Core of `\d{8,15}|ACC\d{6,10}` (account number). -/
def accountNumberCore (l : List Char) : Bool :=
  allDigitsLen 8 15 l ||
    (match l with
     | 'A' :: 'C' :: 'C' :: ds => allDigitsLen 6 10 ds
     | _ => false)

/-- Core of the date-of-birth pattern: one to two digits, a slash or dash,
one to two digits, a slash or dash, four digits; or the year-first variant
with the four digits leading.  Digit runs and separators are disjoint, so run
lengths are deterministic. -/
def dobCore (l : List Char) : Bool :=
  let (d1, r1) := spanList isDigitChar l
  match r1 with
  | s1 :: r2 =>
    (s1 = '/' || s1 = '-') &&
    (let (d2, r3) := spanList isDigitChar r2
     match r3 with
     | s2 :: r4 =>
       (s2 = '/' || s2 = '-') &&
       (let (d3, r5) := spanList isDigitChar r4
        r5.isEmpty &&
        ((decide (1 ≤ d1.length) && decide (d1.length ≤ 2) &&
          decide (1 ≤ d2.length) && decide (d2.length ≤ 2) && decide (d3.length = 4)) ||
         (decide (d1.length = 4) &&
          decide (1 ≤ d2.length) && decide (d2.length ≤ 2) &&
          decide (1 ≤ d3.length) && decide (d3.length ≤ 2))))
     | [] => false)
  | [] => false

/-- Regex class `[\d,]`. -/
def isDigitOrComma (c : Char) : Bool := isDigitChar c || c = ','

/-- Core of the money pattern `\$?[\d,]+(?:\.\d{2})?` (salary / amount /
coverage amount); the dot is not in `[\d,]`, so greedy matching is
deterministic. -/
def amountCore (l : List Char) : Bool :=
  let l1 := match l with
    | c :: rest => if c = '$' then rest else l
    | [] => l
  let (run, rest) := spanList isDigitOrComma l1
  decide (1 ≤ run.length) &&
    (rest.isEmpty ||
      (match rest with
       | ['.', a, b] => isDigitChar a && isDigitChar b
       | _ => false))

/-! ### Confidence scorer (`confidence_scorer.py`, class `EnhancedConfidenceScorer`)

The input `extracted_data` is modelled as an already-flat field map
`List (String × String)`; the source's nested-shape normalization (the
`extracted_fields` / `customer_info` / `policy_info` key sniffing repeated at
the top of every sub-score) reduces to the identity on such inputs and is not
modelled further. -/

/-- A flat Python field map: insertion-ordered `field name → value`. -/
abbrev FieldMap := List (String × String)

/-- Lookup of `self.validation_patterns`: the strict anchored validation
regex for a field name, hand-compiled, or `none` for fields without one. -/
def validation_patterns (field : String) : Option (String → Bool) :=
  if field = "ssn" then some (pyFullMatch ssnCore)
  else if field = "social_security_number" then some (pyFullMatch ssnCore)
  else if field = "phone" then some (pyFullMatch phoneCore)
  else if field = "phone_number" then some (pyFullMatch phoneCore)
  else if field = "email" then some (pyFullMatch emailCore)
  else if field = "email_address" then some (pyFullMatch emailCore)
  else if field = "employee_id" then some (pyFullMatch employeeIdCore)
  else if field = "policy_number" then some (pyFullMatch policyNumberCore)
  else if field = "account_number" then some (pyFullMatch accountNumberCore)
  else if field = "date_of_birth" then some (pyFullMatch dobCore)
  else if field = "dob" then some (pyFullMatch dobCore)
  else if field = "salary" then some (pyFullMatch amountCore)
  else if field = "amount" then some (pyFullMatch amountCore)
  else if field = "coverage_amount" then some (pyFullMatch amountCore)
  else none

/-- The dict `self.field_weights`, in its source order. -/
def field_weights_table : List (String × ℚ) :=
  [("name", 0.15), ("ssn", 0.20), ("social_security_number", 0.20),
   ("date_of_birth", 0.15), ("dob", 0.15), ("employee_id", 0.18),
   ("policy_number", 0.18), ("account_number", 0.18),
   ("address", 0.10), ("phone", 0.08), ("phone_number", 0.08),
   ("email", 0.08), ("email_address", 0.08), ("salary", 0.12),
   ("amount", 0.10), ("coverage_amount", 0.12),
   ("department", 0.06), ("company", 0.05), ("organization", 0.05),
   ("date", 0.05), ("title", 0.04), ("position", 0.04)]

/-- Reading the weight dict through `.get(name, 0.03)`. -/
def field_weights (field : String) : ℚ :=
  (field_weights_table.lookup field).getD 0.03

/-- A field value counts toward completion when it is truthy, not blank, and
not the string "null" (case-insensitively). -/
def countsAsComplete (v : String) : Bool :=
  pyTruthy v && pyTruthy (pyStrip v) && pyLower v ≠ "null"

/-- The accumulated `total_weight` of `_calculate_completion_confidence`. -/
def total_weight (extracted_data : FieldMap) : ℚ :=
  (extracted_data.map (fun p => field_weights p.1)).sum

/-- The accumulated `achieved_weight` of `_calculate_completion_confidence`. -/
def achieved_weight (extracted_data : FieldMap) : ℚ :=
  (extracted_data.map (fun p =>
    if countsAsComplete p.2 then field_weights p.1 else 0)).sum

/-- The method `_calculate_completion_confidence`: weighted fraction of fields
carrying a usable value. -/
def calculate_completion_confidence (extracted_data : FieldMap) : ℚ :=
  if extracted_data.isEmpty then 0
  else if 0 < total_weight extracted_data then
    achieved_weight extracted_data / total_weight extracted_data
  else 0

/-- The method `_check_basic_validity`, for fields without a strict pattern. -/
def check_basic_validity (field_name field_value : String) : ℚ :=
  let value := pyStrip field_value
  if pyIn "name" (pyLower field_name) then
    if pyFullMatch (fun l => l.all (fun c => isAlphaAZ c || isWsChar c) &&
        decide (2 ≤ l.length) && decide (l.length ≤ 50)) value then 1
    else if pyFullMatch (fun l => l.all (fun c =>
        isAlphaAZ c || isWsChar c || c = '.' || c = ',') && decide (2 ≤ l.length)) value then 0.7
    else 0.3
  else if pyIn "address" (pyLower field_name) then
    if 10 < value.length && value.toList.any isDigitChar then 1
    else if 5 < value.length then 0.7
    else 0.3
  else if pyIn "department" (pyLower field_name) || pyIn "company" (pyLower field_name) ||
      pyIn "organization" (pyLower field_name) then
    if pyFullMatch (fun l => l.all (fun c =>
        isAlphaAZ c || isWsChar c || c = '&' || c = '.' || c = ',') &&
        decide (2 ≤ l.length)) value then 1
    else 0.5
  else if 1 < value.length && !(value.toList.all isDigitChar && value ≠ "") then 0.8
  else 0.5

/-- The score list of `_calculate_validation_confidence`: per field with a
non-blank value, 1 or 0 by the strict pattern, else the basic-validity
heuristic. -/
def validation_scores (extracted_data : FieldMap) : List ℚ :=
  extracted_data.filterMap (fun p =>
    if pyTruthy p.2 && pyTruthy (pyStrip p.2) then
      match validation_patterns p.1 with
      | some pat => some (if pat (pyStrip p.2) then (1 : ℚ) else 0)
      | none => some (check_basic_validity p.1 p.2)
    else none)

/-- The final average of `_calculate_validation_confidence`. -/
def calculate_validation_confidence (extracted_data : FieldMap) : ℚ :=
  if (validation_scores extracted_data).isEmpty then 0.5
  else listMean (validation_scores extracted_data)

/-- The suspicious placeholder substrings of `_calculate_data_quality_confidence`. -/
def suspicious_patterns : List String := ["n/a", "null", "none", "unknown", "---", "***"]

/-- Length-appropriateness score of `_calculate_data_quality_confidence`,
over the stripped value. -/
def lengthScore (field_name value : String) : ℚ :=
  if pyIn "name" (pyLower field_name) then
    if 5 ≤ value.length && value.length ≤ 50 then 1 else 0.5
  else if pyIn "address" (pyLower field_name) then
    if 10 ≤ value.length && value.length ≤ 100 then 1 else 0.7
  else
    if 2 ≤ value.length && value.length ≤ 100 then 1 else 0.6

/-- Character-variety score of `_calculate_data_quality_confidence`:
distinct lower-cased characters over length, doubled and capped at 1. -/
def varietyScore (value : String) : ℚ :=
  min 1 ((((pyLower value).toList.dedup.length : ℚ) / (max 1 value.length : ℚ)) * 2)

/-- Suspicious-placeholder penalty of `_calculate_data_quality_confidence`. -/
def suspiciousScore (value : String) : ℚ :=
  if suspicious_patterns.any (fun pat => pyIn pat (pyLower value)) then 0 else 1

/-- Per-field quality factor of `_calculate_data_quality_confidence`:
mean of the length, variety and suspicious-pattern scores of the stripped
value. -/
def fieldQuality (field_name field_value : String) : ℚ :=
  (lengthScore field_name (pyStrip field_value) +
   varietyScore (pyStrip field_value) +
   suspiciousScore (pyStrip field_value)) / 3

/-- The factor list of `_calculate_data_quality_confidence`: one quality
factor per field with a non-blank value. -/
def quality_factors (extracted_data : FieldMap) : List ℚ :=
  extracted_data.filterMap (fun p =>
    if pyTruthy p.2 && pyTruthy (pyStrip p.2) then some (fieldQuality p.1 p.2) else none)

/-- The method `_calculate_data_quality_confidence`. -/
def calculate_data_quality_confidence (extracted_data : FieldMap) : ℚ :=
  if (quality_factors extracted_data).isEmpty then 0.5
  else listMean (quality_factors extracted_data)

/-- The optional `template_classification` argument: the scorer reads
`template_match_score` and `classification_confidence` through `.get(_, 0.5)`
and `state_regulations.compliance_needed` through `.get(_, False)`. -/
structure TemplateClassification where
  template_match_score : Option ℚ
  classification_confidence : Option ℚ
  compliance_needed : Bool

/-- The method `_calculate_template_confidence`: weighted combination of the
externally supplied `template_match_score` (0.5), `classification_confidence`
(0.3), and the state-compliance indicator mapped to 1.0 / 0.8 (0.2). -/
def calculate_template_confidence (template_classification : Option TemplateClassification) : ℚ :=
  match template_classification with
  | none => 0.5
  | some tc =>
    tc.template_match_score.getD 0.5 * 0.5 +
    tc.classification_confidence.getD 0.5 * 0.3 +
    (if tc.compliance_needed then (1 : ℚ) else 0.8) * 0.2

/-- Numeric value of a digit string (Python `int` / `float` on a string of
decimal digits). -/
def natOfDigits (l : List Char) : Nat :=
  l.foldl (fun a c => a * 10 + (c.toNat - 48)) 0

/-- The scan of `re.findall` for the year pattern: word boundary, `19` or
`20` as the capture group, two more digits, word boundary; non-overlapping,
left to right, returning the group matches.  `prev` is the character just
before the current position (`none` at the start of the string). -/
def yearGroupScan : Option Char → List Char → List String
  | _, [] => []
  | prev, c1 :: c2 :: c3 :: c4 :: rest2 =>
    if (match prev with | none => true | some p => !isWordChar p) &&
        ((c1 = '1' && c2 = '9') || (c1 = '2' && c2 = '0')) &&
        isDigitChar c3 && isDigitChar c4 &&
        (match rest2 with | [] => true | n :: _ => !isWordChar n) then
      String.mk [c1, c2] :: yearGroupScan (some c4) rest2
    else yearGroupScan (some c1) (c2 :: c3 :: c4 :: rest2)
  | _, c1 :: rest => yearGroupScan (some c1) rest

/-- First maximal run of `[\d,]` characters (the head of
`re.findall(p, s)` for the digit-or-comma run pattern), or `none`. -/
def firstDigitCommaRun : List Char → Option (List Char)
  | [] => none
  | c :: rest =>
    if isDigitOrComma c then some (c :: rest.takeWhile isDigitOrComma)
    else firstDigitCommaRun rest

/-- Name-consistency component of `_calculate_consistency_confidence`:
with two or more name-like fields carrying values, one score comparing their
first words. -/
def consistencyNamePart (d : FieldMap) : List ℚ :=
  let name_fields := (d.map Prod.fst).filter (fun k => pyIn "name" (pyLower k))
  if 1 < name_fields.length then
    let names := name_fields.filterMap (fun k =>
      match d.lookup k with
      | some v => if pyTruthy v then some (pyStrip v) else none
      | none => none)
    if 1 < names.length then
      let first_words := names.filterMap (fun n => (pySplitWs n).head?)
      [if first_words.dedup.length = 1 then (1 : ℚ) else 0.5]
    else []
  else []

/-- Date-consistency component: for each date-like field whose value contains
a 19xx/20xx year pattern, one score.  `re.findall` with the group `(19|20)`
returns the two-character group, so the parsed "year" is 19 or 20 and the
range test against [1900, 2024] always yields the score 0. -/
def consistencyDatePart (d : FieldMap) : List ℚ :=
  ((d.map Prod.fst).filter (fun k => pyIn "date" (pyLower k))).filterMap (fun k =>
    let date_value := (d.lookup k).getD ""
    match yearGroupScan none date_value.toList with
    | [] => none
    | y :: _ =>
      let year := natOfDigits y.toList
      some (if 1900 ≤ year ∧ year ≤ 2024 then (1 : ℚ) else 0))

/-- Amount-consistency component: for each amount/salary/premium field whose
dollar-stripped value contains a digit-or-comma run, one score; a run of only
commas makes `float` raise, caught by the inner bare except into 0.5. -/
def consistencyAmountPart (d : FieldMap) : List ℚ :=
  ((d.map Prod.fst).filter (fun k =>
      pyIn "amount" (pyLower k) || pyIn "salary" (pyLower k) ||
      pyIn "premium" (pyLower k))).filterMap (fun k =>
    let amount_value := (d.lookup k).getD ""
    match firstDigitCommaRun (amount_value.toList.filter (fun c => c ≠ '$')) with
    | none => none
    | some run =>
      let cleaned := run.filter (fun c => c ≠ ',')
      if cleaned.isEmpty then some 0.5
      else
        let amount := natOfDigits cleaned
        some (if 0 < amount ∧ amount < 10000000 then (1 : ℚ) else 0.3))

/-- The list `consistency_scores` built by `_calculate_consistency_confidence`. -/
def consistency_scores (d : FieldMap) : List ℚ :=
  consistencyNamePart d ++ consistencyDatePart d ++ consistencyAmountPart d

/-- The method `_calculate_consistency_confidence`.  Its final line is
`return np.mean(consistency_scores) if consistency_scores else 0.8`, but the
module never imports numpy, so `np` is an unbound name: whenever
`consistency_scores` is non-empty the method raises `NameError`, modelled as
`Except.error`. -/
def calculate_consistency_confidence (d : FieldMap) : Except Unit ℚ :=
  if (consistency_scores d).isEmpty then .ok 0.8 else .error ()

/-- The critical-field list of `_assess_risk_factors`. -/
def critical_fields : List String :=
  ["name", "ssn", "social_security_number", "employee_id", "policy_number"]

/-- The `risk_assessment` record. -/
structure RiskAssessment where
  high_risk : Bool
  risk_reasons : List String
  warning_signs : List String
deriving Repr, DecidableEq

/-- The method `_assess_risk_factors` (interpolated message text is
abbreviated to a fixed prefix plus the field names). -/
def assess_risk_factors (d : FieldMap) (overall_confidence : ℚ) : RiskAssessment :=
  let missing_critical := critical_fields.filter (fun f =>
    match d.lookup f with
    | some v => !pyTruthy v
    | none => false)
  let reasons1 :=
    if missing_critical.isEmpty then []
    else ["Missing critical fields: " ++ joinCommaSep missing_critical]
  let reasons2 :=
    if overall_confidence < 0.6 then ["Overall confidence below threshold"] else []
  let warn1 := d.filterMap (fun p =>
    if pyTruthy p.2 &&
        (["test", "sample", "example", "placeholder"].any (fun pat => pyIn pat (pyLower p.2))) then
      some ("Suspicious value in " ++ p.1)
    else none)
  let warn2 := (["ssn", "phone", "email"] : List String).filterMap (fun f =>
    match d.lookup f with
    | some v =>
      if pyTruthy v then
        match validation_patterns f with
        | some pat => if !pat (pyStrip v) then some ("Format issue in " ++ f) else none
        | none => none
      else none
    | none => none)
  { high_risk := decide (1 < missing_critical.length) || decide (overall_confidence < 0.6)
    risk_reasons := reasons1 ++ reasons2
    warning_signs := warn1 ++ warn2 }

/-- The method `_assign_quality_grade`. -/
def assign_quality_grade (confidence : ℚ) : String :=
  if 0.9 ≤ confidence then "A"
  else if 0.8 ≤ confidence then "B"
  else if 0.7 ≤ confidence then "C"
  else if 0.6 ≤ confidence then "D"
  else "F"

/-- The method `_generate_recommendations`. -/
def generate_recommendations (confidence : ℚ) (risk_factors : RiskAssessment) : List String :=
  let r1 := if confidence < 0.75 then ["Manual review recommended due to low confidence"] else []
  let r2 := if risk_factors.high_risk then
    ["High risk factors detected - immediate review required"] else []
  let r3 := if !risk_factors.warning_signs.isEmpty then
    ["Data quality issues detected - verify suspicious fields"] else []
  let r4 :=
    if 0.9 < confidence then ["High confidence extraction - safe for automated processing"]
    else if 0.8 < confidence then ["Good confidence - spot check recommended"]
    else []
  let recommendations := r1 ++ r2 ++ r3 ++ r4
  if recommendations.isEmpty then ["Standard processing acceptable"] else recommendations

/-- The `algorithm_scores` sub-record of a confidence report. -/
structure AlgorithmScores where
  completion_confidence : ℚ
  validation_confidence : ℚ
  template_confidence : ℚ
  quality_confidence : ℚ
  consistency_confidence : ℚ
deriving Repr, DecidableEq

/-- The report returned by `calculate_ensemble_confidence`. -/
structure ConfidenceReport where
  overall_confidence : ℚ
  algorithm_scores : AlgorithmScores
  risk_assessment : RiskAssessment
  manual_review_required : Bool
  quality_grade : String
  recommendations : List String
deriving Repr, DecidableEq

/-- The method `_get_fallback_confidence`: the fixed report substituted when
scoring raises. -/
def get_fallback_confidence : ConfidenceReport :=
  { overall_confidence := 0.5
    algorithm_scores :=
      { completion_confidence := 0.5
        validation_confidence := 0.5
        template_confidence := 0.5
        quality_confidence := 0.5
        consistency_confidence := 0.5 }
    risk_assessment :=
      { high_risk := true
        risk_reasons := ["Error in confidence calculation"]
        warning_signs := [] }
    manual_review_required := true
    quality_grade := "F"
    recommendations := ["Manual review required due to processing error"] }

/-- The body of the `try` block of `calculate_ensemble_confidence`: the five
sub-scores, the weighted ensemble, risk assessment, and the assembled report.
The only fallible step on flat string-valued input is the consistency
sub-score (the unbound `np`). -/
def ensembleBody (extracted_data : FieldMap)
    (template_classification : Option TemplateClassification) :
    Except Unit ConfidenceReport := do
  let completion_confidence := calculate_completion_confidence extracted_data
  let validation_confidence := calculate_validation_confidence extracted_data
  let template_confidence := calculate_template_confidence template_classification
  let quality_confidence := calculate_data_quality_confidence extracted_data
  let consistency_confidence ← calculate_consistency_confidence extracted_data
  let overall_confidence :=
    0.25 * completion_confidence +
    0.25 * validation_confidence +
    0.20 * template_confidence +
    0.15 * quality_confidence +
    0.15 * consistency_confidence
  let risk_factors := assess_risk_factors extracted_data overall_confidence
  pure
    { overall_confidence := pyRound3 overall_confidence
      algorithm_scores :=
        { completion_confidence := pyRound3 completion_confidence
          validation_confidence := pyRound3 validation_confidence
          template_confidence := pyRound3 template_confidence
          quality_confidence := pyRound3 quality_confidence
          consistency_confidence := pyRound3 consistency_confidence }
      risk_assessment := risk_factors
      manual_review_required :=
        decide (overall_confidence < 0.75) || risk_factors.high_risk
      quality_grade := assign_quality_grade overall_confidence
      recommendations := generate_recommendations overall_confidence risk_factors }

/-- The method `calculate_ensemble_confidence`: the `try` body with every
exception replaced by the fixed fallback report.  As a total Lean function it
never propagates an error to the caller. -/
def calculate_ensemble_confidence (extracted_data : FieldMap)
    (template_classification : Option TemplateClassification) : ConfidenceReport :=
  match ensembleBody extracted_data template_classification with
  | .ok result => result
  | .error _ => get_fallback_confidence

/-- The ensemble confidence before rounding, on the non-fallback path.
Whenever `calculate_consistency_confidence` succeeds it returns 0.8, so the
consistency term is the constant 0.15 times 0.8. -/
def rawOverallConfidence (extracted_data : FieldMap)
    (template_classification : Option TemplateClassification) : ℚ :=
  0.25 * calculate_completion_confidence extracted_data +
  0.25 * calculate_validation_confidence extracted_data +
  0.20 * calculate_template_confidence template_classification +
  0.15 * calculate_data_quality_confidence extracted_data +
  0.15 * 0.8

/-! ### Multi-technique extractor (`multi_technique_extractor_simple.py` and
`multi_technique_extractor.py`, class `MultiTechniqueExtractor`)

Python's `re.findall` applied to the pattern-library patterns is kept
abstract: the extraction techniques that use it are parametrized by a
function `findall : pattern → text → List String` standing for
`re.findall` composed with the source's projection of a tuple match to its
first group.  Everything around it is embedded concretely. -/

/-- Key list of the dict `self.fuzzy_keywords` (identical in both variants). -/
def fuzzyKeywordFields : List String :=
  ["name", "email", "phone", "ssn", "address", "date", "amount",
   "employee_id", "policy_number"]

/-- The dict `self.fuzzy_keywords`. -/
def fuzzy_keywords (field : String) : List String :=
  if field = "name" then ["name", "full name", "customer name", "employee name", "insured name"]
  else if field = "email" then ["email", "e-mail", "email address", "electronic mail"]
  else if field = "phone" then ["phone", "telephone", "mobile", "cell phone", "contact number"]
  else if field = "ssn" then ["ssn", "social security", "social security number", "tax id"]
  else if field = "address" then ["address", "street address", "mailing address", "residence"]
  else if field = "date" then ["date", "date of birth", "birth date", "dob"]
  else if field = "amount" then ["amount", "salary", "premium", "coverage amount", "benefit amount"]
  else if field = "employee_id" then ["employee id", "emp id", "employee number", "staff id"]
  else if field = "policy_number" then ["policy number", "policy no", "contract number"]
  else []

/-- Key list of the dict `self.regex_patterns`. -/
def regexPatternFields : List String := fuzzyKeywordFields

/-- The dict `self.regex_patterns`: the literal pattern source strings, used
as opaque keys of the abstract `findall`. -/
def regex_patterns (field : String) : List String :=
  if field = "name" then
    ["(?i)(?:name|full\\s*name|customer\\s*name|employee\\s*name|insured\\s*name)[:\\s]*([A-Za-z\\s]\x7b2,50\x7d)",
     "(?i)(?:first\\s*name|last\\s*name)[:\\s]*([A-Za-z\\s]\x7b2,30\x7d)",
     "(?i)name[:\\s]*([A-Z][a-z]+\\s+[A-Z][a-z]+(?:\\s+[A-Z][a-z]+)?)"]
  else if field = "email" then
    ["(?i)(?:email|e-mail|email\\s*address)[:\\s]*([a-zA-Z0-9._%+-]+@[a-zA-Z0-9.-]+\\.[a-zA-Z]\x7b2,\x7d)",
     "\\b[A-Za-z0-9._%+-]+@[A-Za-z0-9.-]+\\.[A-Z|a-z]\x7b2,\x7d\\b"]
  else if field = "phone" then
    ["(?i)(?:phone|telephone|mobile|cell)[:\\s]*(\\(?\\d\x7b3\x7d\\)?[-.\\s]?\\d\x7b3\x7d[-.\\s]?\\d\x7b4\x7d)",
     "\\b\\(?\\d\x7b3\x7d\\)?[-.\\s]?\\d\x7b3\x7d[-.\\s]?\\d\x7b4\x7d\\b"]
  else if field = "ssn" then
    ["(?i)(?:ssn|social\\s*security)[:\\s]*(\\d\x7b3\x7d-\\d\x7b2\x7d-\\d\x7b4\x7d)",
     "\\b\\d\x7b3\x7d-\\d\x7b2\x7d-\\d\x7b4\x7d\\b"]
  else if field = "address" then
    ["(?i)(?:address|street|residence)[:\\s]*([0-9]+\\s+[A-Za-z\\s,]+(?:Street|St|Avenue|Ave|Road|Rd|Drive|Dr|Lane|Ln|Boulevard|Blvd)[A-Za-z\\s,0-9]*)",
     "\\d+\\s+[A-Za-z\\s,]+(?:Street|St|Avenue|Ave|Road|Rd|Drive|Dr|Lane|Ln|Boulevard|Blvd)"]
  else if field = "date" then
    ["(?i)(?:date|born|birth)[:\\s]*(\\d\x7b1,2\x7d[/-]\\d\x7b1,2\x7d[/-]\\d\x7b4\x7d)",
     "\\b\\d\x7b1,2\x7d[/-]\\d\x7b1,2\x7d[/-]\\d\x7b4\x7d\\b"]
  else if field = "amount" then
    ["(?i)(?:amount|salary|premium|coverage)[:\\s]*(\\$?[\\d,]+(?:\\.\\d\x7b2\x7d)?)",
     "\\$[\\d,]+(?:\\.\\d\x7b2\x7d)?"]
  else if field = "employee_id" then
    ["(?i)(?:employee\\s*id|emp\\s*id|id)[:\\s]*([A-Z]\x7b2,4\x7d\\d\x7b3,8\x7d)",
     "\\b[A-Z]\x7b2,4\x7d\\d\x7b3,8\x7d\\b"]
  else if field = "policy_number" then
    ["(?i)(?:policy\\s*number|policy\\s*no)[:\\s]*([A-Z]\x7b2,3\x7d\\d\x7b6,10\x7d)",
     "\\b[A-Z]\x7b2,3\x7d\\d\x7b6,10\x7d\\b"]
  else []

/-- The helper `_extract_value_after_keyword`: locate the keyword
case-insensitively, take the rest of the line, strip it, drop leading
separator characters, take up to the first comma or line break, strip. -/
def extract_value_after_keyword (line keyword : String) : String :=
  match firstOccur (pyLower keyword).toList (pyLower line).toList with
  | none => ""
  | some pos =>
    let remaining := pyStrip (String.mk (line.toList.drop (pos + keyword.length)))
    let remaining2 := String.mk (remaining.toList.dropWhile
      (fun c => c = ':' || c = '-' || c = '=' || isWsChar c))
    let grp := remaining2.toList.takeWhile (fun c => c ≠ ',' && c ≠ '\n' && c ≠ '\r')
    if grp.isEmpty then "" else pyStrip (String.mk grp)

/-- The per-technique result dict. -/
structure TechniqueResult where
  extracted_fields : List (String × String)
  confidence_score : ℚ
  method_details : String
deriving Repr, DecidableEq

/-- A technique body as invoked by the orchestrator; `Except.error` models an
exception escaping the body. -/
abbrev Technique := String → List String → Except Unit TechniqueResult

/-- The per-field loop shared by every technique of the source: each
requested field is processed independently by an attempt function
(`none` models the technique's miss branch, which stores the empty string),
and `successful_extractions` counts the hits. -/
def runFields (attempt : String → Option String) : List String → List (String × String) × Nat
  | [] => ([], 0)
  | f :: fs =>
    let rest := runFields attempt fs
    match attempt f with
    | some v => ((f, v) :: rest.1, rest.2 + 1)
    | none => ((f, "") :: rest.1, rest.2)

/-- The shared confidence formula
`successful_extractions / len(fields) if fields else 0.0`. -/
def techniqueConfidence (fields : List String) (successes : Nat) : ℚ :=
  if fields.isEmpty then 0 else (successes : ℚ) / (fields.length : ℚ)

/-- Per-field attempt of `_regex_pattern_matching`: the first pattern whose
`findall` is non-empty contributes its first match (counted as a success),
fields outside the pattern library miss. -/
def regexAttempt (findall : String → String → List String)
    (text : String) : List String → Option String
  | [] => none
  | p :: ps =>
    match findall p text with
    | [] => regexAttempt findall text ps
    | m :: _ => some m

/-- Technique 1, `_regex_pattern_matching`. -/
def regex_pattern_matching (findall : String → String → List String)
    (text : String) (fields : List String) : TechniqueResult :=
  let attempt := fun field =>
    if field ∈ regexPatternFields then regexAttempt findall text (regex_patterns field)
    else none
  let r := runFields attempt fields
  { extracted_fields := r.1
    confidence_score := techniqueConfidence fields r.2
    method_details := "Regular expression pattern matching with predefined patterns" }

/-- Per-field attempt of the simple variant's `_fuzzy_string_matching`:
the first line containing (case-insensitively) some keyword alias with a
non-empty value after it. -/
def fuzzyAttempt (text field : String) : Option String :=
  if field ∈ fuzzyKeywordFields then
    (pySplitLines text).findSome? (fun line =>
      (fuzzy_keywords field).findSome? (fun keyword =>
        if pyIn (pyLower keyword) (pyLower line) then
          if extract_value_after_keyword line keyword ≠ "" then
            some (extract_value_after_keyword line keyword)
          else none
        else none))
  else none

/-- Technique 2 of the simple variant, `_fuzzy_string_matching`. -/
def fuzzy_string_matching (text : String) (fields : List String) : TechniqueResult :=
  let r := runFields (fuzzyAttempt text) fields
  { extracted_fields := r.1
    confidence_score := techniqueConfidence fields r.2
    method_details := "String matching with keyword variations" }

/-- Python `set(s.lower().split())`, as a duplicate-free word list. -/
def pyWordSet (s : String) : List String := (pySplitWs (pyLower s)).dedup

/-- The word-overlap ratio of `_semantic_similarity_matching`: shared
distinct words over the keyword's distinct words. -/
def semanticScore (line keyword : String) : ℚ :=
  ((((pyWordSet keyword).filter (fun w => w ∈ pyWordSet line)).length : ℚ) /
    ((pyWordSet keyword).length : ℚ))

/-- One keyword step of `_semantic_similarity_matching`: word-overlap ratio
against the running best (strict improvement above one half). -/
def semanticStep (line : String) (acc : Option String × ℚ) (keyword : String) :
    Option String × ℚ :=
  if 0 < (pyWordSet keyword).length then
    if 1/2 < semanticScore line keyword ∧ acc.2 < semanticScore line keyword then
      if extract_value_after_keyword line keyword ≠ "" then
        (some (extract_value_after_keyword line keyword), semanticScore line keyword)
      else acc
    else acc
  else acc

/-- Per-field attempt of `_semantic_similarity_matching`. -/
def semanticAttempt (text field : String) : Option String :=
  if field ∈ fuzzyKeywordFields then
    ((pySplitLines text).foldl (fun acc line =>
      (fuzzy_keywords field).foldl (semanticStep line) acc) (none, 0)).1
  else none

/-- Technique 10 of the simple variant, `_semantic_similarity_matching`. -/
def semantic_similarity_matching (text : String) (fields : List String) : TechniqueResult :=
  let r := runFields (semanticAttempt text) fields
  { extracted_fields := r.1
    confidence_score := techniqueConfidence fields r.2
    method_details := "Semantic similarity matching with word overlap analysis" }

/-- The non-simple variant's `_fuzzy_string_matching`: its body calls
`process.extractOne`, but `multi_technique_extractor.py` never imports
fuzzywuzzy, so the first field with keyword aliases raises `NameError`
(the alias loop always runs: the line list of any text is non-empty and every
keyword list is non-empty).  With no such field the loop never reaches
`process` and every field misses. -/
def fuzzy_string_matching_full : Technique := fun _text fields =>
  if fields.any (fun f => f ∈ fuzzyKeywordFields) then .error ()
  else .ok
    { extracted_fields := fields.map (fun f => (f, ""))
      confidence_score := techniqueConfidence fields 0
      method_details := "Fuzzy string matching with keyword variations" }

/-- The technique loop of `extract_with_multiple_techniques`, restricted to
the `technique_results` dict it fills: techniques absent from the registry
are skipped; a technique that completes contributes its `extracted_fields`;
a technique that raises is caught and recorded as the empty dict. -/
def runTechniqueResults (registry : List (String × Technique)) (text : String)
    (fields : List String) : List String → List (String × List (String × String))
  | [] => []
  | name :: rest =>
    (match registry.lookup name with
     | none => []
     | some f =>
       match f text fields with
       | .ok r => [(name, r.extracted_fields)]
       | .error _ => [(name, ([] : List (String × String)))]) ++
    runTechniqueResults registry text fields rest

/-- The same loop restricted to the `technique_confidence_scores` dict:
a raising technique is recorded with confidence 0.0. -/
def runTechniqueScores (registry : List (String × Technique)) (text : String)
    (fields : List String) : List String → List (String × ℚ)
  | [] => []
  | name :: rest =>
    (match registry.lookup name with
     | none => []
     | some f =>
       match f text fields with
       | .ok r => [(name, r.confidence_score)]
       | .error _ => [(name, (0 : ℚ))]) ++
    runTechniqueScores registry text fields rest

/-- Key-value list of `collections.Counter(candidates)`: distinct candidates
in first-occurrence order with their occurrence counts. -/
def counterEntries (candidates : List String) : List (String × Nat) :=
  (dedupFirst candidates).map (fun c => (c, candidates.count c))

/-- The candidate list `_consolidate_results` gathers for one field: the
value of each technique that has the field with a non-blank value (the
unstripped value is kept, as in the source). -/
def consolidationCandidates (technique_results : List (String × List (String × String)))
    (field : String) : List String :=
  technique_results.filterMap (fun tr =>
    match tr.2.lookup field with
    | some v => if pyTruthy (pyStrip v) then some v else none
    | none => none)

/-- The method `_consolidate_results` (identical in both variants): per
requested field, the non-blank values contributed by the techniques, decided
by `max` over their `Counter`; the empty string when no technique
contributed. -/
def consolidate_results (technique_results : List (String × List (String × String)))
    (requested_fields : List String) : List (String × String) :=
  requested_fields.map (fun field =>
    let candidates := consolidationCandidates technique_results field
    (field, if candidates.isEmpty then "" else (pyMaxEntry (counterEntries candidates)).1))

/-- The method `_find_best_technique_per_field`: per field, the contributing
technique with the strictly largest overall confidence (first wins ties),
`"none"` when no technique contributed. -/
def find_best_technique_per_field
    (technique_results : List (String × List (String × String)))
    (confidence_scores : List (String × ℚ))
    (requested_fields : List String) : List (String × String) :=
  requested_fields.map (fun field =>
    let best := technique_results.foldl (fun (acc : Option String × ℚ) tr =>
      match tr.2.lookup field with
      | some v =>
        if pyTruthy (pyStrip v) then
          let score := (confidence_scores.lookup tr.1).getD 0
          if acc.2 < score then (some tr.1, score) else acc
        else acc
      | none => acc) (none, -1)
    (field, best.1.getD "none"))

/-- Stable descending insertion by score (the order produced by Python
`sorted(..., key=score, reverse=True)`, which is a stable sort). -/
def insertDescStable (x : String × ℚ) : List (String × ℚ) → List (String × ℚ)
  | [] => [x]
  | y :: ys => if y.2 ≤ x.2 then x :: y :: ys else y :: insertDescStable x ys

/-- Stable sort by confidence score, descending. -/
def sortByScoreDesc : List (String × ℚ) → List (String × ℚ)
  | [] => []
  | x :: xs => insertDescStable x (sortByScoreDesc xs)

/-- The method `_rank_techniques_overall`: ranks 1..N along the stable
descending sort of the confidence scores. -/
def rank_techniques_overall (confidence_scores : List (String × ℚ)) : List (String × Nat) :=
  (sortByScoreDesc confidence_scores).enum.map (fun p => (p.2.1, p.1 + 1))

/-- The result dict of `extract_with_multiple_techniques`. -/
structure ExtractOutput where
  technique_results : List (String × List (String × String))
  consolidated_results : List (String × String)
  technique_confidence_scores : List (String × ℚ)
  best_technique_per_field : List (String × String)
  overall_technique_ranking : List (String × Nat)
deriving Repr, DecidableEq

/-- The method `extract_with_multiple_techniques`, parametrized by the
technique registry `self.techniques` so that claims can quantify over
technique bodies.  Each technique call sits inside the source's
`try/except` failure boundary, so the function is total: no technique error
escapes it. -/
def extract_with_multiple_techniques (registry : List (String × Technique))
    (text : String) (requested_fields : List String)
    (selected_techniques : Option (List String)) : ExtractOutput :=
  let selected := selected_techniques.getD (registry.map Prod.fst)
  let technique_results := runTechniqueResults registry text requested_fields selected
  let technique_confidence_scores := runTechniqueScores registry text requested_fields selected
  { technique_results := technique_results
    consolidated_results := consolidate_results technique_results requested_fields
    technique_confidence_scores := technique_confidence_scores
    best_technique_per_field :=
      find_best_technique_per_field technique_results technique_confidence_scores requested_fields
    overall_technique_ranking := rank_techniques_overall technique_confidence_scores }

/-- The three concretely embedded techniques of the simple variant, with the
registry keys they carry in `self.techniques`. -/
def simpleRegistry (findall : String → String → List String) : List (String × Technique) :=
  [("regex_pattern_matching", fun text fields => .ok (regex_pattern_matching findall text fields)),
   ("fuzzy_string_matching", fun text fields => .ok (fuzzy_string_matching text fields)),
   ("semantic_similarity_matching", fun text fields => .ok (semantic_similarity_matching text fields))]

/-! ### Candidate voting (`_vote_on_candidates` and `_validate_field_format`) -/

/-- Core of the anchored date validation pattern: one to two digits,
separator, one to two digits, separator, four digits. -/
def dateCore (l : List Char) : Bool :=
  let (d1, r1) := spanList isDigitChar l
  match r1 with
  | s1 :: r2 =>
    (s1 = '/' || s1 = '-') &&
    (let (d2, r3) := spanList isDigitChar r2
     match r3 with
     | s2 :: r4 =>
       (s2 = '/' || s2 = '-') &&
       (let (d3, r5) := spanList isDigitChar r4
        r5.isEmpty &&
        decide (1 ≤ d1.length) && decide (d1.length ≤ 2) &&
        decide (1 ≤ d2.length) && decide (d2.length ≤ 2) && decide (d3.length = 4))
     | [] => false)
  | [] => false

/-- Core of the name validation pattern `[A-Za-z\s]{2,50}` (anchored use). -/
def nameValidCore (l : List Char) : Bool :=
  l.all (fun c => isAlphaAZ c || isWsChar c) &&
  decide (2 ≤ l.length) && decide (l.length ≤ 50)

/-- The extractor method `_validate_field_format` (identical in both
variants): strict per-type shape check, `True` for unknown types. -/
def validate_field_format (value field_type : String) : Bool :=
  if field_type = "email" then pyFullMatch emailCore value
  else if field_type = "phone" then pyFullMatch phoneCore value
  else if field_type = "ssn" then pyFullMatch ssnCore value
  else if field_type = "date" then pyFullMatch dateCore value
  else if field_type = "amount" || field_type = "salary" then pyFullMatch amountCore value
  else if field_type = "employee_id" || field_type = "policy_number" then
    pyFullMatch (upperThenDigits 2 4 3 8) value
  else if field_type = "name" then
    pyFullMatch nameValidCore value && decide (2 ≤ (pySplitWs value).length)
  else true

/-- Ensure a key is present in the voting dict with initial value 0
(`if candidate not in candidate_scores: candidate_scores[candidate] = 0`). -/
def dictInsertZero (d : List (String × Nat)) (k : String) : List (String × Nat) :=
  if (d.lookup k).isSome then d else d ++ [(k, 0)]

/-- In-place `candidate_scores[k] += v` on the first (unique) entry for `k`. -/
def dictAdd (k : String) (v : Nat) : List (String × Nat) → List (String × Nat)
  | [] => []
  | (k2, v2) :: rest => if k2 = k then (k2, v2 + v) :: rest else (k2, v2) :: dictAdd k v rest

/-- The scoring loop of `_vote_on_candidates`: one iteration per occurrence
of each candidate, each iteration adding the candidate's full occurrence
count plus, when the candidate passes `_validate_field_format`, the bonus 5. -/
def voteScoresLoop (pool : List String) (field_type : String) :
    List String → List (String × Nat) → List (String × Nat)
  | [], acc => acc
  | c :: rest, acc =>
    let acc1 := dictInsertZero acc c
    let acc2 := dictAdd c (pool.count c) acc1
    let acc3 := if validate_field_format c field_type then dictAdd c 5 acc2 else acc2
    voteScoresLoop pool field_type rest acc3

/-- The method `_vote_on_candidates` (identical scoring in both variants):
highest-scoring candidate under the loop above, empty string for an empty
pool. -/
def vote_on_candidates (candidates : List String) (field_type : String) : String :=
  if candidates.isEmpty then ""
  else (pyMaxEntry (voteScoresLoop candidates field_type candidates [])).1

/-- Closed form of the score the loop accumulates for one candidate:
`count * (count + 5)` when valid, `count * count` otherwise. -/
def codeVoteScore (pool : List String) (field_type : String) (c : String) : Nat :=
  pool.count c * (pool.count c + (if validate_field_format c field_type then 5 else 0))

/-- The vote score as the specification words it, written down only to be
compared against `vote_on_candidates`: "occurrence-count + (5 bonus if the
candidate passes the field's strict validation regex)". -/
def specVoteScore (pool : List String) (field_type : String) (c : String) : Nat :=
  pool.count c + (if validate_field_format c field_type then 5 else 0)

/-! ### Auxiliary definitions used by the claim statements -/

/-- The template match score the scorer will read: 0.5 with no template
classification, otherwise `template_classification.get("template_match_score", 0.5)`. -/
def templateScoreOf (tc : Option TemplateClassification) : ℚ :=
  match tc with
  | none => 0.5
  | some t => t.template_match_score.getD 0.5

/-- The classification confidence the scorer will read. -/
def classificationConfOf (tc : Option TemplateClassification) : ℚ :=
  match tc with
  | none => 0.5
  | some t => t.classification_confidence.getD 0.5

/-- The validity bonus of `_vote_on_candidates`. -/
def voteBonus (field_type c : String) : Nat :=
  if validate_field_format c field_type then 5 else 0

/-- A technique body that raises: exercises the orchestrator's failure
boundary. -/
def failingTechnique : Technique := fun _ _ => .error ()

/-- Concrete template classification whose externally supplied match score
3.679 drives the pre-rounding ensemble confidence to exactly 0.7499. -/
def c4Template : TemplateClassification :=
  { template_match_score := some (3679/1000)
    classification_confidence := none
    compliance_needed := false }

/-- Concrete template classification whose match score 5.179 drives the
pre-rounding ensemble confidence to exactly 0.8999. -/
def c6Template : TemplateClassification :=
  { template_match_score := some (5179/1000)
    classification_confidence := none
    compliance_needed := false }

/-- Concrete template classification with an out-of-range external match
score of 10. -/
def c5Template : TemplateClassification :=
  { template_match_score := some 10
    classification_confidence := none
    compliance_needed := false }

/-! ## Theorems -/

/-- C2: for every extracted_data input and optional template classification,
if an exception is raised while computing the five confidence sub-scores
(the `try` body fails), `calculate_ensemble_confidence` catches it and
returns exactly the fixed fallback report — overall_confidence 0.5, all five
algorithm scores 0.5, high_risk true, manual_review_required true, quality
grade "F" — and, being total, never propagates an exception to the caller. -/
theorem C2_scoring_exception_yields_fallback
    (extracted_data : FieldMap) (template_classification : Option TemplateClassification)
    (h : (ensembleBody extracted_data template_classification).isOk = false) :
    calculate_ensemble_confidence extracted_data template_classification =
      get_fallback_confidence ∧
    get_fallback_confidence.overall_confidence = 0.5 ∧
    get_fallback_confidence.algorithm_scores.completion_confidence = 0.5 ∧
    get_fallback_confidence.algorithm_scores.validation_confidence = 0.5 ∧
    get_fallback_confidence.algorithm_scores.template_confidence = 0.5 ∧
    get_fallback_confidence.algorithm_scores.quality_confidence = 0.5 ∧
    get_fallback_confidence.algorithm_scores.consistency_confidence = 0.5 ∧
    get_fallback_confidence.risk_assessment.high_risk = true ∧
    get_fallback_confidence.manual_review_required = true ∧
    get_fallback_confidence.quality_grade = "F" := by
  refine ⟨?_, rfl, rfl, rfl, rfl, rfl, rfl, rfl, rfl, rfl⟩
  cases h2 : ensembleBody extracted_data template_classification with
  | ok r => rw [h2] at h; simp [Except.isOk, Except.toBool] at h
  | error e => simp [calculate_ensemble_confidence, h2]

/-- Witness for C2 at the concrete input `{"amount": "5"}` (the amount
consistency check produces a score, so the unbound `np` raises). -/
theorem C2_scoring_exception_yields_fallback_witness :
    calculate_ensemble_confidence [("amount", "5")] none = get_fallback_confidence ∧
    get_fallback_confidence.overall_confidence = 0.5 ∧
    get_fallback_confidence.algorithm_scores.completion_confidence = 0.5 ∧
    get_fallback_confidence.algorithm_scores.validation_confidence = 0.5 ∧
    get_fallback_confidence.algorithm_scores.template_confidence = 0.5 ∧
    get_fallback_confidence.algorithm_scores.quality_confidence = 0.5 ∧
    get_fallback_confidence.algorithm_scores.consistency_confidence = 0.5 ∧
    get_fallback_confidence.risk_assessment.high_risk = true ∧
    get_fallback_confidence.manual_review_required = true ∧
    get_fallback_confidence.quality_grade = "F" :=
  C2_scoring_exception_yields_fallback [("amount", "5")] none (by decide)

/-- C10: every flat extracted_data input that yields at least one
consistency check result — a numeric amount/salary/premium field, a date
field containing a 19xx/20xx year, or two or more name fields with values —
makes `calculate_ensemble_confidence` return the fixed fallback report
(overall confidence 0.5, grade "F", high risk) rather than a computed score:
the consistency mean is computed with the unbound name `np` and the
resulting `NameError` is caught by the outer boundary. -/
theorem C10_consistency_check_forces_fallback
    (extracted_data : FieldMap) (template_classification : Option TemplateClassification)
    (h : consistency_scores extracted_data ≠ []) :
    calculate_ensemble_confidence extracted_data template_classification =
      get_fallback_confidence ∧
    get_fallback_confidence.overall_confidence = 0.5 ∧
    get_fallback_confidence.quality_grade = "F" ∧
    get_fallback_confidence.risk_assessment.high_risk = true := by
  refine ⟨?_, rfl, rfl, rfl⟩
  have herr : calculate_consistency_confidence extracted_data = .error () := by
    simp [calculate_consistency_confidence, List.isEmpty_iff, h]
  simp [calculate_ensemble_confidence, ensembleBody, herr]

/-- Witness for C10 at the concrete input `{"salary": "50,000"}`. -/
theorem C10_consistency_check_forces_fallback_witness :
    calculate_ensemble_confidence [("salary", "50,000")] none = get_fallback_confidence ∧
    get_fallback_confidence.overall_confidence = 0.5 ∧
    get_fallback_confidence.quality_grade = "F" ∧
    get_fallback_confidence.risk_assessment.high_risk = true :=
  C10_consistency_check_forces_fallback [("salary", "50,000")] none (by decide)

/-- Structure of the successful scoring path: when the consistency score
list is empty the `try` body succeeds, the consistency sub-score is 0.8, and
the report is built from the pre-rounding ensemble confidence
`rawOverallConfidence`. -/
theorem ensembleBody_ok (d : FieldMap) (tc : Option TemplateClassification)
    (h : consistency_scores d = []) :
    ensembleBody d tc = .ok
      { overall_confidence := pyRound3 (rawOverallConfidence d tc)
        algorithm_scores :=
          { completion_confidence := pyRound3 (calculate_completion_confidence d)
            validation_confidence := pyRound3 (calculate_validation_confidence d)
            template_confidence := pyRound3 (calculate_template_confidence tc)
            quality_confidence := pyRound3 (calculate_data_quality_confidence d)
            consistency_confidence := pyRound3 0.8 }
        risk_assessment := assess_risk_factors d (rawOverallConfidence d tc)
        manual_review_required :=
          decide (rawOverallConfidence d tc < 0.75) ||
            (assess_risk_factors d (rawOverallConfidence d tc)).high_risk
        quality_grade := assign_quality_grade (rawOverallConfidence d tc)
        recommendations :=
          generate_recommendations (rawOverallConfidence d tc)
            (assess_risk_factors d (rawOverallConfidence d tc)) } := by
  have hc : calculate_consistency_confidence d = .ok 0.8 := by
    simp [calculate_consistency_confidence, List.isEmpty_iff, h]
  simp [ensembleBody, hc, rawOverallConfidence]

/-- The fallback path of `calculate_ensemble_confidence`, as a reusable
lemma: a non-empty consistency score list forces the fallback report. -/
theorem calculate_fallback_of_scores (d : FieldMap)
    (tc : Option TemplateClassification) (h : consistency_scores d ≠ []) :
    calculate_ensemble_confidence d tc = get_fallback_confidence := by
  have herr : calculate_consistency_confidence d = .error () := by
    simp [calculate_consistency_confidence, List.isEmpty_iff, h]
  simp [calculate_ensemble_confidence, ensembleBody, herr]

/-- The successful path of `calculate_ensemble_confidence`, as a reusable
lemma. -/
theorem calculate_ok_of_scores (d : FieldMap)
    (tc : Option TemplateClassification) (h : consistency_scores d = []) :
    calculate_ensemble_confidence d tc =
      { overall_confidence := pyRound3 (rawOverallConfidence d tc)
        algorithm_scores :=
          { completion_confidence := pyRound3 (calculate_completion_confidence d)
            validation_confidence := pyRound3 (calculate_validation_confidence d)
            template_confidence := pyRound3 (calculate_template_confidence tc)
            quality_confidence := pyRound3 (calculate_data_quality_confidence d)
            consistency_confidence := pyRound3 0.8 }
        risk_assessment := assess_risk_factors d (rawOverallConfidence d tc)
        manual_review_required :=
          decide (rawOverallConfidence d tc < 0.75) ||
            (assess_risk_factors d (rawOverallConfidence d tc)).high_risk
        quality_grade := assign_quality_grade (rawOverallConfidence d tc)
        recommendations :=
          generate_recommendations (rawOverallConfidence d tc)
            (assess_risk_factors d (rawOverallConfidence d tc)) } := by
  rw [calculate_ensemble_confidence, ensembleBody_ok d tc h]

/-- Rounding helper: when the scaled value sits strictly between `n + 1/2`
and `n + 1`, Python rounds up to `n + 1` thousandths. -/
theorem pyRound3_up (x : ℚ) (n : ℤ) (h1 : (n : ℚ) + 1/2 < x * 1000)
    (h2 : x * 1000 < n + 1) : pyRound3 x = ((n + 1 : ℤ) : ℚ) / 1000 := by
  have hn : ⌊x * 1000⌋ = n := by
    rw [Int.floor_eq_iff]
    constructor
    · linarith
    · exact_mod_cast h2
  simp only [pyRound3, hn]
  have hr1 : ¬ (x * 1000 - (n : ℚ) < 1/2) := by linarith
  have hr2 : (1:ℚ)/2 < x * 1000 - (n : ℚ) := by linarith
  rw [if_neg hr1, if_pos hr2]

/-- Rounding helper: when the scaled value is exactly an integer, rounding
returns the value unchanged. -/
theorem pyRound3_int (x : ℚ) (n : ℤ) (h : x * 1000 = (n : ℚ)) :
    pyRound3 x = x := by
  have hn : ⌊x * 1000⌋ = n := by rw [h]; exact Int.floor_intCast n
  simp only [pyRound3, hn]
  have hr : x * 1000 - (n : ℚ) < 1/2 := by rw [h]; norm_num
  rw [if_pos hr]
  field_simp
  linarith

/-- Rounding to three decimals preserves the unit interval. -/
theorem pyRound3_mem_unit (x : ℚ) (h0 : 0 ≤ x) (h1 : x ≤ 1) :
    0 ≤ pyRound3 x ∧ pyRound3 x ≤ 1 := by
  set y := x * 1000 with hy
  have hy0 : 0 ≤ y := by positivity
  have hy1 : y ≤ 1000 := by rw [hy]; linarith
  have hn0 : 0 ≤ ⌊y⌋ := Int.floor_nonneg.mpr hy0
  have hn1 : ⌊y⌋ ≤ 1000 := by
    have : (⌊y⌋ : ℚ) ≤ 1000 := le_trans (Int.floor_le y) hy1
    exact_mod_cast this
  have hfl : (⌊y⌋ : ℚ) ≤ y := Int.floor_le y
  have hup : ∀ k : ℤ, 0 ≤ k → k ≤ 1000 → 0 ≤ ((k : ℚ) / 1000) ∧ ((k : ℚ) / 1000) ≤ 1 := by
    intro k hk0 hk1
    constructor
    · positivity
    · rw [div_le_one (by norm_num)]
      exact_mod_cast hk1
  have hbig : ¬ (y - (⌊y⌋ : ℚ) < 1/2) → ⌊y⌋ + 1 ≤ 1000 := by
    intro hr
    push_neg at hr
    have : (⌊y⌋ : ℚ) + 1/2 ≤ 1000 := by linarith
    have : (⌊y⌋ : ℚ) < 1000 := by linarith
    have : ⌊y⌋ < 1000 := by exact_mod_cast this
    omega
  simp only [pyRound3]
  rw [← hy]
  split_ifs with hr1 hr2 hr3
  · exact hup ⌊y⌋ hn0 hn1
  · exact hup (⌊y⌋ + 1) (by omega) (hbig hr1)
  · exact hup ⌊y⌋ hn0 hn1
  · exact hup (⌊y⌋ + 1) (by omega) (hbig hr1)

/-- Completion confidence of the empty field map. -/
theorem completion_empty : calculate_completion_confidence [] = 0 := rfl

/-- Validation confidence of the empty field map. -/
theorem validation_empty : calculate_validation_confidence [] = 0.5 := rfl

/-- Data quality confidence of the empty field map. -/
theorem quality_empty : calculate_data_quality_confidence [] = 0.5 := rfl

/-- Risk assessment of the empty field map: no missing critical fields, no
warnings; high risk only from low overall confidence. -/
theorem risk_empty (q : ℚ) :
    assess_risk_factors [] q =
      { high_risk := decide (q < 0.6)
        risk_reasons := if q < 0.6 then ["Overall confidence below threshold"] else []
        warning_signs := [] } := by
  simp [assess_risk_factors, critical_fields, List.lookup]

/-- The pre-rounding ensemble confidence at the C4 counterexample input. -/
theorem raw_c4 : rawOverallConfidence [] (some c4Template) = 7499/10000 := by
  norm_num [rawOverallConfidence, calculate_completion_confidence,
    calculate_validation_confidence, calculate_data_quality_confidence,
    calculate_template_confidence, validation_scores, quality_factors,
    c4Template]

/-- C4, counterexample: at extracted_data `{}` with an externally supplied
template match score of 3.679, the pre-rounding ensemble confidence is
0.7499 (so `manual_review_required` is true), but the report's
`overall_confidence` is rounded to 0.75 and `high_risk` is false, so the
claimed equation between `manual_review_required` and the disjunction over
the report's own fields fails. -/
theorem C4_counterexample_rounded_report :
    (calculate_ensemble_confidence [] (some c4Template)).manual_review_required ≠
      (decide ((calculate_ensemble_confidence [] (some c4Template)).overall_confidence < 0.75) ||
        (calculate_ensemble_confidence [] (some c4Template)).risk_assessment.high_risk) := by
  rw [calculate_ok_of_scores [] (some c4Template) rfl]
  have hround : pyRound3 ((7499 : ℚ)/10000) = ((749 + 1 : ℤ) : ℚ) / 1000 :=
    pyRound3_up _ 749 (by norm_num) (by norm_num)
  have h1 : ((7499 : ℚ)/10000 < 0.75) := by norm_num
  have h2 : ¬ ((7499 : ℚ)/10000 < 0.6) := by norm_num
  have h3 : ¬ (((749 + 1 : ℤ) : ℚ) / 1000 < 0.75) := by norm_num
  simp [raw_c4, risk_empty, hround, h1, h2, h3]
  norm_num

/-- C4, amended: `manual_review_required` equals the disjunction computed
from the PRE-ROUNDING ensemble confidence (not the rounded
`overall_confidence` published in the report) and the report's `high_risk`
flag; on the fallback path both sides are true. -/
theorem C4_manual_review_amended (d : FieldMap) (tc : Option TemplateClassification) :
    (calculate_ensemble_confidence d tc).manual_review_required =
      (decide (rawOverallConfidence d tc < 0.75) ||
        (calculate_ensemble_confidence d tc).risk_assessment.high_risk) := by
  by_cases h : consistency_scores d = []
  · rw [calculate_ok_of_scores d tc h]
  · rw [calculate_fallback_of_scores d tc h]
    simp [get_fallback_confidence]

/-- The pre-rounding ensemble confidence at the C6 counterexample input. -/
theorem raw_c6 : rawOverallConfidence [] (some c6Template) = 8999/10000 := by
  norm_num [rawOverallConfidence, calculate_completion_confidence,
    calculate_validation_confidence, calculate_data_quality_confidence,
    calculate_template_confidence, validation_scores, quality_factors,
    c6Template]

/-- C6, counterexample: at extracted_data `{}` with an externally supplied
template match score of 5.179 the pre-rounding ensemble confidence is
0.8999, the grade is computed from it as "B", but the report publishes the
rounded overall_confidence 0.9 — so at a report with
`overall_confidence ≥ 0.9` the grade is not "A" as claimed. -/
theorem C6_counterexample_rounded_boundary :
    (0.9 : ℚ) ≤ (calculate_ensemble_confidence [] (some c6Template)).overall_confidence ∧
    (calculate_ensemble_confidence [] (some c6Template)).quality_grade ≠ "A" := by
  rw [calculate_ok_of_scores [] (some c6Template) rfl]
  have hround : pyRound3 ((8999 : ℚ)/10000) = ((899 + 1 : ℤ) : ℚ) / 1000 :=
    pyRound3_up _ 899 (by norm_num) (by norm_num)
  constructor
  · simp only [raw_c6, hround]
    norm_num
  · simp only [raw_c6, assign_quality_grade]
    rw [if_neg (by norm_num), if_pos (by norm_num)]
    decide

/-- C6, amended: on every non-fallback report the quality grade is the band
step function applied to the PRE-ROUNDING ensemble confidence (not to the
rounded `overall_confidence` published in the report), and the band function
itself includes each boundary value 0.9, 0.8, 0.7, 0.6 in the higher band. -/
theorem C6_quality_grade_amended (d : FieldMap) (tc : Option TemplateClassification)
    (h : consistency_scores d = []) :
    (calculate_ensemble_confidence d tc).quality_grade =
      assign_quality_grade (rawOverallConfidence d tc) ∧
    (∀ q : ℚ,
      ((0.9 : ℚ) ≤ q → assign_quality_grade q = "A") ∧
      ((0.8 : ℚ) ≤ q → q < 0.9 → assign_quality_grade q = "B") ∧
      ((0.7 : ℚ) ≤ q → q < 0.8 → assign_quality_grade q = "C") ∧
      ((0.6 : ℚ) ≤ q → q < 0.7 → assign_quality_grade q = "D") ∧
      (q < 0.6 → assign_quality_grade q = "F")) := by
  constructor
  · rw [calculate_ok_of_scores d tc h]
  · intro q
    refine ⟨?_, ?_, ?_, ?_, ?_⟩
    · intro h1
      rw [assign_quality_grade, if_pos h1]
    · intro h1 h2
      rw [assign_quality_grade, if_neg (by linarith), if_pos h1]
    · intro h1 h2
      rw [assign_quality_grade, if_neg (by linarith), if_neg (by linarith), if_pos h1]
    · intro h1 h2
      rw [assign_quality_grade, if_neg (by linarith), if_neg (by linarith),
        if_neg (by linarith), if_pos h1]
    · intro h1
      rw [assign_quality_grade, if_neg (by linarith), if_neg (by linarith),
        if_neg (by linarith), if_neg (by linarith)]

/-- Witness for the amended C6 at the empty field map. -/
theorem C6_quality_grade_amended_witness :
    (calculate_ensemble_confidence [] none).quality_grade =
      assign_quality_grade (rawOverallConfidence [] none) ∧
    (∀ q : ℚ,
      ((0.9 : ℚ) ≤ q → assign_quality_grade q = "A") ∧
      ((0.8 : ℚ) ≤ q → q < 0.9 → assign_quality_grade q = "B") ∧
      ((0.7 : ℚ) ≤ q → q < 0.8 → assign_quality_grade q = "C") ∧
      ((0.6 : ℚ) ≤ q → q < 0.7 → assign_quality_grade q = "D") ∧
      (q < 0.6 → assign_quality_grade q = "F")) :=
  C6_quality_grade_amended [] none rfl

/-- Membership bound for a unit-interval-valued conditional. -/
theorem ite_mem_unit {c : Prop} [Decidable c] {a b : ℚ}
    (ha : 0 ≤ a ∧ a ≤ 1) (hb : 0 ≤ b ∧ b ≤ 1) :
    0 ≤ (if c then a else b) ∧ (if c then a else b) ≤ 1 := by
  split_ifs
  · exact ha
  · exact hb

/-- Values looked up in an association list whose entries satisfy a bound
keep that bound, with a bounded default. -/
theorem lookup_getD_nonneg (l : List (String × ℚ)) (d : ℚ)
    (hd : 0 ≤ d) (h : ∀ p ∈ l, 0 ≤ p.2) (s : String) :
    0 ≤ (l.lookup s).getD d := by
  induction l with
  | nil => simpa [List.lookup]
  | cons hd2 tl ih =>
    simp only [List.lookup]
    cases hbe : (s == hd2.1)
    · simpa using ih fun p hp => h p (by simp [hp])
    · simpa using h hd2 (by simp)

/-- Every field weight is non-negative. -/
theorem field_weights_nonneg (s : String) : 0 ≤ field_weights s := by
  unfold field_weights
  apply lookup_getD_nonneg _ _ (by norm_num)
  intro p hp
  simp only [field_weights_table] at hp
  fin_cases hp <;> norm_num

/-- The completion sub-score lies in the unit interval. -/
theorem completion_mem_unit (d : FieldMap) :
    0 ≤ calculate_completion_confidence d ∧ calculate_completion_confidence d ≤ 1 := by
  unfold calculate_completion_confidence
  split_ifs with h1 h2
  · norm_num
  · have hach : 0 ≤ achieved_weight d := by
      unfold achieved_weight
      apply List.sum_nonneg
      intro x hx
      simp only [List.mem_map] at hx
      obtain ⟨p, _, rfl⟩ := hx
      split_ifs
      · exact field_weights_nonneg p.1
      · exact le_refl 0
    have hle : achieved_weight d ≤ total_weight d := by
      unfold achieved_weight total_weight
      apply List.sum_le_sum
      intro p _
      split_ifs
      · exact le_refl _
      · exact field_weights_nonneg p.1
    exact ⟨div_nonneg hach (le_of_lt h2), by rw [div_le_one h2]; exact hle⟩
  · norm_num

/-- The mean of a non-empty list of unit-interval rationals lies in the unit
interval. -/
theorem listMean_mem_unit (l : List ℚ) (hne : l ≠ [])
    (h : ∀ x ∈ l, 0 ≤ x ∧ x ≤ 1) : 0 ≤ listMean l ∧ listMean l ≤ 1 := by
  unfold listMean
  have hlen : 0 < (l.length : ℚ) := by
    exact_mod_cast List.length_pos.mpr hne
  constructor
  · exact div_nonneg (List.sum_nonneg fun x hx => (h x hx).1) hlen.le
  · rw [div_le_one hlen]
    calc l.sum ≤ l.length • (1 : ℚ) := List.sum_le_card_nsmul l 1 fun x hx => (h x hx).2
    _ = l.length := by simp

/-- The basic-validity heuristic lies in the unit interval. -/
theorem basic_validity_mem_unit (n v : String) :
    0 ≤ check_basic_validity n v ∧ check_basic_validity n v ≤ 1 := by
  unfold check_basic_validity
  refine ite_mem_unit (ite_mem_unit (by norm_num) (ite_mem_unit (by norm_num) (by norm_num)))
    (ite_mem_unit (ite_mem_unit (by norm_num) (ite_mem_unit (by norm_num) (by norm_num)))
      (ite_mem_unit (ite_mem_unit (by norm_num) (by norm_num))
        (ite_mem_unit (by norm_num) (by norm_num))))

/-- The validation sub-score lies in the unit interval. -/
theorem validation_mem_unit (d : FieldMap) :
    0 ≤ calculate_validation_confidence d ∧ calculate_validation_confidence d ≤ 1 := by
  unfold calculate_validation_confidence
  split_ifs with h1
  · norm_num
  · apply listMean_mem_unit _ (by simpa [List.isEmpty_iff] using h1)
    intro x hx
    simp only [validation_scores, List.mem_filterMap] at hx
    obtain ⟨p, _, hfa⟩ := hx
    by_cases hcond : (pyTruthy p.2 && pyTruthy (pyStrip p.2)) = true
    · rw [if_pos hcond] at hfa
      cases hpat : validation_patterns p.1 with
      | some pat =>
        rw [hpat] at hfa
        simp only [Option.some.injEq] at hfa
        subst hfa
        split_ifs <;> norm_num
      | none =>
        rw [hpat] at hfa
        simp only [Option.some.injEq] at hfa
        subst hfa
        exact basic_validity_mem_unit p.1 p.2
    · rw [if_neg hcond] at hfa
      simp at hfa

/-- The per-field quality factor lies in the unit interval. -/
theorem fieldQuality_mem_unit (n v : String) :
    0 ≤ fieldQuality n v ∧ fieldQuality n v ≤ 1 := by
  have hl : 0 ≤ lengthScore n (pyStrip v) ∧ lengthScore n (pyStrip v) ≤ 1 := by
    unfold lengthScore
    refine ite_mem_unit (ite_mem_unit (by norm_num) (by norm_num))
      (ite_mem_unit (ite_mem_unit (by norm_num) (by norm_num))
        (ite_mem_unit (by norm_num) (by norm_num)))
  have hv : 0 ≤ varietyScore (pyStrip v) ∧ varietyScore (pyStrip v) ≤ 1 := by
    unfold varietyScore
    constructor
    · apply le_min (by norm_num)
      positivity
    · exact min_le_left _ _
  have hs : 0 ≤ suspiciousScore (pyStrip v) ∧ suspiciousScore (pyStrip v) ≤ 1 := by
    unfold suspiciousScore
    split_ifs <;> norm_num
  unfold fieldQuality
  constructor
  · linarith [hl.1, hv.1, hs.1]
  · linarith [hl.2, hv.2, hs.2]

/-- The data-quality sub-score lies in the unit interval. -/
theorem quality_mem_unit (d : FieldMap) :
    0 ≤ calculate_data_quality_confidence d ∧ calculate_data_quality_confidence d ≤ 1 := by
  unfold calculate_data_quality_confidence
  split_ifs with h1
  · norm_num
  · apply listMean_mem_unit _ (by simpa [List.isEmpty_iff] using h1)
    intro x hx
    simp only [quality_factors, List.mem_filterMap] at hx
    obtain ⟨p, _, hfa⟩ := hx
    by_cases hcond : (pyTruthy p.2 && pyTruthy (pyStrip p.2)) = true
    · rw [if_pos hcond] at hfa
      simp only [Option.some.injEq] at hfa
      subst hfa
      exact fieldQuality_mem_unit p.1 p.2
    · rw [if_neg hcond] at hfa
      simp at hfa

/-- The template sub-score lies in the unit interval whenever the externally
supplied match score and classification confidence do. -/
theorem template_mem_unit (tc : Option TemplateClassification)
    (h1 : 0 ≤ templateScoreOf tc) (h2 : templateScoreOf tc ≤ 1)
    (h3 : 0 ≤ classificationConfOf tc) (h4 : classificationConfOf tc ≤ 1) :
    0 ≤ calculate_template_confidence tc ∧ calculate_template_confidence tc ≤ 1 := by
  cases tc with
  | none => norm_num [calculate_template_confidence]
  | some t =>
    simp only [templateScoreOf, classificationConfOf] at h1 h2 h3 h4
    simp only [calculate_template_confidence]
    split_ifs with hc <;> constructor <;> linarith

/-- The pre-rounding ensemble confidence at the C5 counterexample input. -/
theorem raw_c5 : rawOverallConfidence [] (some c5Template) = 691/500 := by
  norm_num [rawOverallConfidence, calculate_completion_confidence,
    calculate_validation_confidence, calculate_data_quality_confidence,
    calculate_template_confidence, validation_scores, quality_factors,
    c5Template]

/-- C5, counterexample: with an externally supplied template match score of
10 (nothing in the scorer clamps it), the report's overall_confidence is
1.382, outside [0, 1]. -/
theorem C5_counterexample_overall_above_one :
    ¬ ((calculate_ensemble_confidence [] (some c5Template)).overall_confidence ≤ 1) := by
  rw [calculate_ok_of_scores [] (some c5Template) rfl]
  have hround : pyRound3 ((691 : ℚ)/500) = (691 : ℚ)/500 :=
    pyRound3_int _ 1382 (by norm_num)
  simp only [raw_c5, hround]
  norm_num

/-- C5, amended: whenever the externally supplied template match score and
classification confidence (defaulted to 0.5 when absent) lie in [0, 1], the
report's overall_confidence lies in [0, 1]; the fallback report's 0.5 also
does. -/
theorem C5_overall_in_unit_interval_amended (d : FieldMap)
    (tc : Option TemplateClassification)
    (h1 : 0 ≤ templateScoreOf tc) (h2 : templateScoreOf tc ≤ 1)
    (h3 : 0 ≤ classificationConfOf tc) (h4 : classificationConfOf tc ≤ 1) :
    0 ≤ (calculate_ensemble_confidence d tc).overall_confidence ∧
    (calculate_ensemble_confidence d tc).overall_confidence ≤ 1 := by
  by_cases h : consistency_scores d = []
  · rw [calculate_ok_of_scores d tc h]
    have hc := completion_mem_unit d
    have hv := validation_mem_unit d
    have hq := quality_mem_unit d
    have ht := template_mem_unit tc h1 h2 h3 h4
    refine pyRound3_mem_unit _ ?_ ?_
    · unfold rawOverallConfidence
      nlinarith [hc.1, hv.1, hq.1, ht.1]
    · unfold rawOverallConfidence
      nlinarith [hc.2, hv.2, hq.2, ht.2]
  · rw [calculate_fallback_of_scores d tc h]
    norm_num [get_fallback_confidence]

/-- Witness for the amended C5 at a concrete field map and absent template
classification (whose defaulted scores are 0.5). -/
theorem C5_overall_in_unit_interval_amended_witness :
    0 ≤ (calculate_ensemble_confidence [("name", "John Smith")] none).overall_confidence ∧
    (calculate_ensemble_confidence [("name", "John Smith")] none).overall_confidence ≤ 1 :=
  C5_overall_in_unit_interval_amended [("name", "John Smith")] none
    (by norm_num [templateScoreOf]) (by norm_num [templateScoreOf])
    (by norm_num [classificationConfOf]) (by norm_num [classificationConfOf])

/-- What the orchestrator records for a selected, registered technique in
`technique_results`: its extracted fields on success, the empty dict on an
exception. -/
theorem runTechniqueResults_lookup (registry : List (String × Technique))
    (text : String) (fields : List String) (selected : List String)
    (name : String) (f : Technique)
    (hsel : name ∈ selected) (hreg : registry.lookup name = some f) :
    (runTechniqueResults registry text fields selected).lookup name =
      some (match f text fields with
            | .ok r => r.extracted_fields
            | .error _ => []) := by
  induction selected with
  | nil => cases hsel
  | cons hd tl ih =>
    by_cases hh : hd = name
    · subst hh
      simp only [runTechniqueResults, hreg]
      cases hfr : f text fields <;> simp [List.lookup]
    · have hmem : name ∈ tl := by
        rcases List.mem_cons.mp hsel with h | h
        · exact absurd h.symm hh
        · exact h
      simp only [runTechniqueResults]
      cases hl : registry.lookup hd with
      | none => simpa using ih hmem
      | some g =>
        obtain ⟨v, hv⟩ : ∃ v, (match g text fields with
            | Except.ok r => [(hd, r.extracted_fields)]
            | Except.error _ => [(hd, ([] : List (String × String)))]) = [(hd, v)] := by
          cases g text fields <;> exact ⟨_, rfl⟩
        simp only [hv, List.singleton_append]
        have hne : (name == hd) = false := beq_eq_false_iff_ne.mpr (Ne.symm hh)
        simpa [List.lookup, hne] using ih hmem

/-- What the orchestrator records for a selected, registered technique in
`technique_confidence_scores`: its confidence on success, 0.0 on an
exception. -/
theorem runTechniqueScores_lookup (registry : List (String × Technique))
    (text : String) (fields : List String) (selected : List String)
    (name : String) (f : Technique)
    (hsel : name ∈ selected) (hreg : registry.lookup name = some f) :
    (runTechniqueScores registry text fields selected).lookup name =
      some (match f text fields with
            | .ok r => r.confidence_score
            | .error _ => 0) := by
  induction selected with
  | nil => cases hsel
  | cons hd tl ih =>
    by_cases hh : hd = name
    · subst hh
      simp only [runTechniqueScores, hreg]
      cases hfr : f text fields <;> simp [List.lookup]
    · have hmem : name ∈ tl := by
        rcases List.mem_cons.mp hsel with h | h
        · exact absurd h.symm hh
        · exact h
      simp only [runTechniqueScores]
      cases hl : registry.lookup hd with
      | none => simpa using ih hmem
      | some g =>
        obtain ⟨v, hv⟩ : ∃ v, (match g text fields with
            | Except.ok r => [(hd, r.confidence_score)]
            | Except.error _ => [(hd, (0 : ℚ))]) = [(hd, v)] := by
          cases g text fields <;> exact ⟨_, rfl⟩
        simp only [hv, List.singleton_append]
        have hne : (name == hd) = false := beq_eq_false_iff_ne.mpr (Ne.symm hh)
        simpa [List.lookup, hne] using ih hmem

/-- C1: for every text, non-empty requested-field list and selected
technique whose body raises, `extract_with_multiple_techniques` (a total
function: the failure boundary catches the exception) records the failing
technique with the empty field dict and confidence exactly 0.0, and every
other selected and registered technique is still run and recorded with its
own result. -/
theorem C1_technique_failure_isolation (registry : List (String × Technique))
    (text : String) (fields : List String) (selected : List String)
    (name : String) (f : Technique)
    (_hfields : fields ≠ []) (hsel : name ∈ selected)
    (hreg : registry.lookup name = some f)
    (herr : f text fields = .error ()) :
    ((extract_with_multiple_techniques registry text fields (some selected)).technique_results.lookup
        name = some []) ∧
    ((extract_with_multiple_techniques registry text fields (some selected)).technique_confidence_scores.lookup
        name = some 0) ∧
    (∀ name2 f2 r2, name2 ∈ selected → registry.lookup name2 = some f2 →
      f2 text fields = .ok r2 →
      ((extract_with_multiple_techniques registry text fields (some selected)).technique_results.lookup
          name2 = some r2.extracted_fields) ∧
      ((extract_with_multiple_techniques registry text fields (some selected)).technique_confidence_scores.lookup
          name2 = some r2.confidence_score)) := by
  refine ⟨?_, ?_, ?_⟩
  · rw [show (extract_with_multiple_techniques registry text fields (some selected)).technique_results =
        runTechniqueResults registry text fields selected from rfl]
    rw [runTechniqueResults_lookup registry text fields selected name f hsel hreg, herr]
  · rw [show (extract_with_multiple_techniques registry text fields (some selected)).technique_confidence_scores =
        runTechniqueScores registry text fields selected from rfl]
    rw [runTechniqueScores_lookup registry text fields selected name f hsel hreg, herr]
  · intro name2 f2 r2 hsel2 hreg2 hok2
    constructor
    · rw [show (extract_with_multiple_techniques registry text fields (some selected)).technique_results =
          runTechniqueResults registry text fields selected from rfl]
      rw [runTechniqueResults_lookup registry text fields selected name2 f2 hsel2 hreg2, hok2]
    · rw [show (extract_with_multiple_techniques registry text fields (some selected)).technique_confidence_scores =
          runTechniqueScores registry text fields selected from rfl]
      rw [runTechniqueScores_lookup registry text fields selected name2 f2 hsel2 hreg2, hok2]

/-- Witness for C1: a registry holding a raising technique next to the
(total) semantic similarity technique; the failing one is recorded empty
with confidence 0, the other still runs. -/
theorem C1_technique_failure_isolation_witness :
    ((extract_with_multiple_techniques
        [("boom", failingTechnique),
         ("semantic_similarity_matching", fun text fields => .ok (semantic_similarity_matching text fields))]
        "Name: John Smith" ["name"]
        (some ["boom", "semantic_similarity_matching"])).technique_results.lookup
        "boom" = some []) ∧
    ((extract_with_multiple_techniques
        [("boom", failingTechnique),
         ("semantic_similarity_matching", fun text fields => .ok (semantic_similarity_matching text fields))]
        "Name: John Smith" ["name"]
        (some ["boom", "semantic_similarity_matching"])).technique_confidence_scores.lookup
        "boom" = some 0) ∧
    (∀ name2 f2 r2, name2 ∈ ["boom", "semantic_similarity_matching"] →
      (List.lookup name2
        [("boom", failingTechnique),
         ("semantic_similarity_matching", fun text fields => .ok (semantic_similarity_matching text fields))]) = some f2 →
      f2 "Name: John Smith" ["name"] = .ok r2 →
      ((extract_with_multiple_techniques
          [("boom", failingTechnique),
           ("semantic_similarity_matching", fun text fields => .ok (semantic_similarity_matching text fields))]
          "Name: John Smith" ["name"]
          (some ["boom", "semantic_similarity_matching"])).technique_results.lookup
          name2 = some r2.extracted_fields) ∧
      ((extract_with_multiple_techniques
          [("boom", failingTechnique),
           ("semantic_similarity_matching", fun text fields => .ok (semantic_similarity_matching text fields))]
          "Name: John Smith" ["name"]
          (some ["boom", "semantic_similarity_matching"])).technique_confidence_scores.lookup
          name2 = some r2.confidence_score)) :=
  C1_technique_failure_isolation _ "Name: John Smith" ["name"]
    ["boom", "semantic_similarity_matching"] "boom" failingTechnique
    (by decide) (by decide) rfl rfl

/-- The running fold of Python `max` keeps an element of the list and
dominates every element. -/
theorem foldlMax_spec (es : List (String × Nat)) : ∀ e : String × Nat,
    (es.foldl (fun best x => if best.2 < x.2 then x else best) e) ∈ e :: es ∧
    ∀ x ∈ e :: es, x.2 ≤ (es.foldl (fun best x => if best.2 < x.2 then x else best) e).2 := by
  induction es with
  | nil => intro e; simp
  | cons hd tl ih =>
    intro e
    simp only [List.foldl]
    by_cases hc : e.2 < hd.2
    · rw [if_pos hc]
      obtain ⟨hmem, hmax⟩ := ih hd
      refine ⟨?_, ?_⟩
      · rcases List.mem_cons.mp hmem with h | h
        · simp [h]
        · simp [List.mem_cons, Or.inr (Or.inr h)]
      · intro x hx
        rcases List.mem_cons.mp hx with h | h
        · subst h
          exact le_trans (le_of_lt hc) (hmax hd (by simp))
        · exact hmax x h
    · rw [if_neg hc]
      obtain ⟨hmem, hmax⟩ := ih e
      refine ⟨?_, ?_⟩
      · rcases List.mem_cons.mp hmem with h | h
        · simp [h]
        · simp [List.mem_cons, Or.inr (Or.inr h)]
      · intro x hx
        rcases List.mem_cons.mp hx with h | h
        · exact hmax x (by simp [h])
        · rcases List.mem_cons.mp h with h2 | h2
          · subst h2
            exact le_trans (le_of_not_lt hc) (hmax e (by simp))
          · exact hmax x (by simp [h2])

/-- Python `max` over a non-empty entry list returns an entry of the list. -/
theorem pyMaxEntry_mem (l : List (String × Nat)) (h : l ≠ []) : pyMaxEntry l ∈ l := by
  cases l with
  | nil => exact absurd rfl h
  | cons e es => exact (foldlMax_spec es e).1

/-- Python `max` over a non-empty entry list dominates every entry. -/
theorem pyMaxEntry_max (l : List (String × Nat)) (h : l ≠ []) :
    ∀ x ∈ l, x.2 ≤ (pyMaxEntry l).2 := by
  cases l with
  | nil => exact absurd rfl h
  | cons e es => exact (foldlMax_spec es e).2

/-- Membership through the first-occurrence deduplication accumulator. -/
theorem dedupFirstAux_mem (a : String) : ∀ (l seen : List String),
    a ∈ dedupFirstAux seen l ↔ a ∈ l ∧ a ∉ seen := by
  intro l
  induction l with
  | nil => intro seen; simp [dedupFirstAux]
  | cons hd tl ih =>
    intro seen
    simp only [dedupFirstAux]
    split_ifs with hs
    · rw [ih seen]
      by_cases hah : a = hd
      · subst hah
        simp [hs]
      · simp [List.mem_cons, hah]
    · by_cases hah : a = hd
      · subst hah
        simp [hs]
      · simp only [List.mem_cons, hah, false_or]
        rw [ih (hd :: seen)]
        simp [List.mem_cons, hah]

/-- Membership in the first-occurrence deduplication. -/
theorem dedupFirst_mem (a : String) (l : List String) :
    a ∈ dedupFirst l ↔ a ∈ l := by
  simp [dedupFirst, dedupFirstAux_mem]

/-- Every `Counter` entry pairs a pool member with its occurrence count. -/
theorem counterEntries_mem_val (cands : List String) (e : String × Nat)
    (h : e ∈ counterEntries cands) : e.2 = cands.count e.1 ∧ e.1 ∈ cands := by
  simp only [counterEntries, List.mem_map] at h
  obtain ⟨c, hc, rfl⟩ := h
  exact ⟨rfl, (dedupFirst_mem c cands).mp hc⟩

/-- Every pool member has its `Counter` entry. -/
theorem counterEntries_mem_of (cands : List String) (c : String) (h : c ∈ cands) :
    (c, cands.count c) ∈ counterEntries cands := by
  simp only [counterEntries, List.mem_map]
  exact ⟨c, (dedupFirst_mem c cands).mpr h, rfl⟩

/-- Lookup of a key-indexed mapped list. -/
theorem lookup_map_apply {α : Type} (g : String → α) :
    ∀ (l : List String) (a : String), a ∈ l →
      (l.map (fun f => (f, g f))).lookup a = some (g a) := by
  intro l
  induction l with
  | nil => intro a ha; cases ha
  | cons hd tl ih =>
    intro a ha
    by_cases hah : a = hd
    · subst hah
      simp [List.lookup]
    · have hne : (a == hd) = false := beq_eq_false_iff_ne.mpr hah
      rcases List.mem_cons.mp ha with h | h
      · exact absurd h hah
      · simp only [List.map, List.lookup, hne]
        exact ih a h

/-- C3: for every requested field, the consolidated value is a most frequent
value among the non-blank candidate values contributed by the techniques
(majority vote over occurrence counts), and when every technique returned
empty or absent for the field the consolidated value is the empty string. -/
theorem C3_consolidation_majority_vote
    (technique_results : List (String × List (String × String)))
    (requested_fields : List String) (field : String)
    (hf : field ∈ requested_fields) :
    ∃ v, (consolidate_results technique_results requested_fields).lookup field = some v ∧
      (consolidationCandidates technique_results field = [] → v = "") ∧
      (consolidationCandidates technique_results field ≠ [] →
        v ∈ consolidationCandidates technique_results field ∧
        ∀ c ∈ consolidationCandidates technique_results field,
          (consolidationCandidates technique_results field).count c ≤
            (consolidationCandidates technique_results field).count v) := by
  refine ⟨_, lookup_map_apply _ requested_fields field hf, ?_, ?_⟩
  · intro hempty
    simp [hempty]
  · intro hne
    have hentne : counterEntries (consolidationCandidates technique_results field) ≠ [] := by
      cases hc : consolidationCandidates technique_results field with
      | nil => exact absurd hc hne
      | cons x xs =>
        simp [counterEntries, dedupFirst, dedupFirstAux]
    have hmem := pyMaxEntry_mem _ hentne
    have hmax := pyMaxEntry_max _ hentne
    obtain ⟨hval, hin⟩ := counterEntries_mem_val _ _ hmem
    have hisempty : (consolidationCandidates technique_results field).isEmpty = false := by
      cases hc : consolidationCandidates technique_results field with
      | nil => exact absurd hc hne
      | cons x xs => rfl
    constructor
    · simp only [hisempty]
      simpa using hin
    · intro c hc
      have hce := counterEntries_mem_of _ c hc
      have := hmax _ hce
      simp only [hisempty]
      simp only [Bool.false_eq_true, if_false]
      calc (consolidationCandidates technique_results field).count c
          ≤ (pyMaxEntry (counterEntries (consolidationCandidates technique_results field))).2 := this
        _ = _ := hval

/-- Witness for C3: seven of the techniques disagreeing, majority on
"Jane Doe". -/
theorem C3_consolidation_majority_vote_witness :
    ∃ v, (consolidate_results
        [("t1", [("name", "Jane Doe")]), ("t2", [("name", "Bob")]),
         ("t3", [("name", "Jane Doe")])] ["name", "ssn"]).lookup "name" = some v ∧
      (consolidationCandidates
        [("t1", [("name", "Jane Doe")]), ("t2", [("name", "Bob")]),
         ("t3", [("name", "Jane Doe")])] "name" = [] → v = "") ∧
      (consolidationCandidates
        [("t1", [("name", "Jane Doe")]), ("t2", [("name", "Bob")]),
         ("t3", [("name", "Jane Doe")])] "name" ≠ [] →
        v ∈ consolidationCandidates
          [("t1", [("name", "Jane Doe")]), ("t2", [("name", "Bob")]),
           ("t3", [("name", "Jane Doe")])] "name" ∧
        ∀ c ∈ consolidationCandidates
          [("t1", [("name", "Jane Doe")]), ("t2", [("name", "Bob")]),
           ("t3", [("name", "Jane Doe")])] "name",
          (consolidationCandidates
            [("t1", [("name", "Jane Doe")]), ("t2", [("name", "Bob")]),
             ("t3", [("name", "Jane Doe")])] "name").count c ≤
          (consolidationCandidates
            [("t1", [("name", "Jane Doe")]), ("t2", [("name", "Bob")]),
             ("t3", [("name", "Jane Doe")])] "name").count v) :=
  C3_consolidation_majority_vote
    [("t1", [("name", "Jane Doe")]), ("t2", [("name", "Bob")]),
     ("t3", [("name", "Jane Doe")])] ["name", "ssn"] "name" (by decide)

/-- Closed form of the shared per-field loop: the field dict maps every
requested field to its attempted value (empty string on a miss), and the
success counter counts the hits. -/
theorem runFields_spec (attempt : String → Option String) :
    ∀ fields : List String,
      runFields attempt fields =
        (fields.map (fun f => (f, (attempt f).getD "")),
         fields.countP (fun f => (attempt f).isSome)) := by
  intro fields
  induction fields with
  | nil => rfl
  | cons hd tl ih =>
    simp only [runFields, ih]
    cases h : attempt hd <;> simp [List.countP_cons, h]

/-- Values produced by `List.findSome?` satisfy any property its function
guarantees. -/
theorem findSome?_prop {α β : Type} (P : β → Prop) (f : α → Option β)
    (h : ∀ a b, f a = some b → P b) :
    ∀ (l : List α) (b : β), l.findSome? f = some b → P b := by
  intro l
  induction l with
  | nil => intro b hb; simp [List.findSome?] at hb
  | cons hd tl ih =>
    intro b hb
    rw [List.findSome?_cons] at hb
    cases hf : f hd with
    | some c =>
      rw [hf] at hb
      injection hb with hbc
      exact hbc ▸ h hd c hf
    | none =>
      rw [hf] at hb
      exact ih b hb

/-- The regex technique's per-field attempt never yields the empty string
when `findall` never reports an empty match. -/
theorem regexAttempt_ne_empty (findall : String → String → List String)
    (text : String) (hne : ∀ p t, "" ∉ findall p t) :
    ∀ (pats : List String) (v : String),
      regexAttempt findall text pats = some v → v ≠ "" := by
  intro pats
  induction pats with
  | nil => intro v h; simp [regexAttempt] at h
  | cons p ps ih =>
    intro v h
    simp only [regexAttempt] at h
    cases hf : findall p text with
    | nil =>
      rw [hf] at h
      exact ih v h
    | cons m ms =>
      rw [hf] at h
      injection h with hmv
      intro hveq
      apply hne p text
      rw [hf, hmv, hveq]
      exact List.mem_cons_self _ _

/-- The fuzzy technique's per-field attempt never yields the empty string. -/
theorem fuzzyAttempt_ne_empty (text field v : String)
    (h : fuzzyAttempt text field = some v) : v ≠ "" := by
  unfold fuzzyAttempt at h
  split_ifs at h
  · refine findSome?_prop (fun w => w ≠ "") _ ?_ _ v h
    intro line b hb
    refine findSome?_prop (fun w => w ≠ "") _ ?_ _ b hb
    intro keyword c hc
    split_ifs at hc with h1 h2
    injection hc with hvc
    exact hvc ▸ h2

/-- One step of the semantic technique's fold keeps the running best value
non-empty. -/
theorem semanticStep_ne (line keyword : String) (acc : Option String × ℚ)
    (hacc : ∀ v, acc.1 = some v → v ≠ "") :
    ∀ v, (semanticStep line acc keyword).1 = some v → v ≠ "" := by
  intro v hv
  unfold semanticStep at hv
  split_ifs at hv with h1 h2 h3
  · injection hv with hvv
    exact hvv ▸ h3
  · exact hacc v hv
  · exact hacc v hv
  · exact hacc v hv

/-- The keyword fold of the semantic technique keeps the running best value
non-empty. -/
theorem semanticKeywordFold_ne (line : String) :
    ∀ (ks : List String) (acc : Option String × ℚ),
      (∀ v, acc.1 = some v → v ≠ "") →
      ∀ v, (ks.foldl (semanticStep line) acc).1 = some v → v ≠ "" := by
  intro ks
  induction ks with
  | nil => intro acc hacc; exact hacc
  | cons k ks ih =>
    intro acc hacc
    simp only [List.foldl]
    exact ih (semanticStep line acc k) (semanticStep_ne line k acc hacc)

/-- The semantic technique's per-field attempt never yields the empty
string. -/
theorem semanticAttempt_ne_empty (text field v : String)
    (h : semanticAttempt text field = some v) : v ≠ "" := by
  unfold semanticAttempt at h
  split_ifs at h
  · revert h
    have hgen : ∀ (lines : List String) (acc : Option String × ℚ),
        (∀ w, acc.1 = some w → w ≠ "") →
        ∀ w, ((lines.foldl (fun a line => (fuzzy_keywords field).foldl (semanticStep line) a) acc).1 = some w → w ≠ "") := by
      intro lines
      induction lines with
      | nil => intro acc hacc; exact hacc
      | cons l ls ih =>
        intro acc hacc
        simp only [List.foldl]
        exact ih _ (semanticKeywordFold_ne l (fuzzy_keywords field) acc hacc)
    exact fun h => hgen (pySplitLines text) (none, 0) (by simp) v h

/-- Equal counts under a pointwise-on-members agreement of predicates. -/
theorem countP_congr_mem {α : Type} (p q : α → Bool) :
    ∀ l : List α, (∀ a ∈ l, p a = q a) → l.countP p = l.countP q := by
  intro l
  induction l with
  | nil => intro _; rfl
  | cons hd tl ih =>
    intro h
    simp only [List.countP_cons, h hd (by simp), ih fun a ha => h a (by simp [ha])]

/-- The shared confidence formula, expressed through the result dict: number
of requested fields with a non-empty recorded value over the number of
requested fields, 0 for the empty list. -/
theorem conf_formula (attempt : String → Option String) (fields : List String)
    (hne : ∀ f v, attempt f = some v → v ≠ "") :
    techniqueConfidence fields (runFields attempt fields).2 =
      if fields = [] then 0 else
        ((fields.countP (fun f =>
          (((runFields attempt fields).1.lookup f).getD "") ≠ "")) : ℚ) / fields.length := by
  rw [runFields_spec]
  unfold techniqueConfidence
  cases hfe : fields with
  | nil => simp
  | cons hd tl =>
    rw [← hfe]
    have hfne : fields ≠ [] := by simp [hfe]
    have hcount : fields.countP (fun f =>
        (((fields.map (fun f => (f, (attempt f).getD ""))).lookup f).getD "") ≠ "") =
        fields.countP (fun f => (attempt f).isSome) := by
      apply countP_congr_mem
      intro a ha
      rw [lookup_map_apply (fun f => (attempt f).getD "") fields a ha]
      cases hat : attempt a with
      | none => simp
      | some w =>
        have hw := hne a w hat
        simp [hw]
    have hie : fields.isEmpty = false := by simp [hfe]
    simp only [hie, hcount, if_neg hfne]
    simp

/-- C7: for each of the embedded techniques (none of which raises), on every
text and requested-field list the reported confidence equals the number of
requested fields with a non-empty extracted value divided by the number of
requested fields, and 0.0 for the empty field list.  The regex technique is
quantified over any `findall` oracle that never reports an empty match (true
of every pattern in the library, each of which requires at least one
character). -/
theorem C7_confidence_ratio (findall : String → String → List String)
    (text : String) (fields : List String)
    (hne : ∀ p t, "" ∉ findall p t) :
    ((regex_pattern_matching findall text fields).confidence_score =
      if fields = [] then 0 else
        ((fields.countP (fun f =>
          (((regex_pattern_matching findall text fields).extracted_fields.lookup f).getD "") ≠ "")) : ℚ) /
          fields.length) ∧
    ((fuzzy_string_matching text fields).confidence_score =
      if fields = [] then 0 else
        ((fields.countP (fun f =>
          (((fuzzy_string_matching text fields).extracted_fields.lookup f).getD "") ≠ "")) : ℚ) /
          fields.length) ∧
    ((semantic_similarity_matching text fields).confidence_score =
      if fields = [] then 0 else
        ((fields.countP (fun f =>
          (((semantic_similarity_matching text fields).extracted_fields.lookup f).getD "") ≠ "")) : ℚ) /
          fields.length) := by
  refine ⟨?_, ?_, ?_⟩
  · exact conf_formula
      (fun field => if field ∈ regexPatternFields then
        regexAttempt findall text (regex_patterns field) else none)
      fields
      (fun f v hv => by
        dsimp only at hv
        split_ifs at hv
        exact regexAttempt_ne_empty findall text hne _ v hv)
  · exact conf_formula (fuzzyAttempt text) fields
      (fun f v hv => fuzzyAttempt_ne_empty text f v hv)
  · exact conf_formula (semanticAttempt text) fields
      (fun f v hv => semanticAttempt_ne_empty text f v hv)

/-- Witness for C7 with a one-match oracle, a concrete text and two
requested fields. -/
theorem C7_confidence_ratio_witness :
    ((regex_pattern_matching (fun _ _ => ["x"]) "Name: John Smith" ["name", "ssn"]).confidence_score =
      if ["name", "ssn"] = ([] : List String) then 0 else
        ((["name", "ssn"].countP (fun f =>
          (((regex_pattern_matching (fun _ _ => ["x"]) "Name: John Smith" ["name", "ssn"]).extracted_fields.lookup f).getD "") ≠ "")) : ℚ) /
          (["name", "ssn"] : List String).length) ∧
    ((fuzzy_string_matching "Name: John Smith" ["name", "ssn"]).confidence_score =
      if ["name", "ssn"] = ([] : List String) then 0 else
        ((["name", "ssn"].countP (fun f =>
          (((fuzzy_string_matching "Name: John Smith" ["name", "ssn"]).extracted_fields.lookup f).getD "") ≠ "")) : ℚ) /
          (["name", "ssn"] : List String).length) ∧
    ((semantic_similarity_matching "Name: John Smith" ["name", "ssn"]).confidence_score =
      if ["name", "ssn"] = ([] : List String) then 0 else
        ((["name", "ssn"].countP (fun f =>
          (((semantic_similarity_matching "Name: John Smith" ["name", "ssn"]).extracted_fields.lookup f).getD "") ≠ "")) : ℚ) /
          (["name", "ssn"] : List String).length) :=
  C7_confidence_ratio (fun _ _ => ["x"]) "Name: John Smith" ["name", "ssn"]
    (by intro p t h; simp at h)

/-- C8: the claimed invariant — every technique's recorded extracted_fields
dict has exactly the requested keys — holds for techniques that complete
(see the keys of `runFields`), but in `multi_technique_extractor.py` the
fuzzy technique always raises `NameError` (fuzzywuzzy's `process` is used
without being imported), so its recorded dict is empty: at text
"Name: John Smith" and requested fields `["name"]` the recorded key set is
empty, not `{"name"}`. -/
theorem C8_full_variant_fuzzy_records_empty :
    ((extract_with_multiple_techniques
        [("fuzzy_string_matching", fuzzy_string_matching_full)]
        "Name: John Smith" ["name"]
        (some ["fuzzy_string_matching"])).technique_results.lookup
        "fuzzy_string_matching" = some []) ∧
    (([] : List (String × String)).map Prod.fst ≠ ["name"]) := by
  constructor
  · decide
  · decide

/-- C9, counterexample: the voting loop runs once per occurrence, so a
thrice-repeated invalid candidate scores 3 × 3 = 9 and beats a valid
candidate scoring 1 + 5 = 6; under the claimed scoring (count + 5 bonus) the
valid candidate (score 6) strictly beats the repeated one (score 3), so the
returned value is not the claimed argmax. -/
theorem C9_vote_counterexample :
    vote_on_candidates ["aaa", "aaa", "aaa", "john@x.com"] "email" = "aaa" ∧
    specVoteScore ["aaa", "aaa", "aaa", "john@x.com"] "email" "aaa" <
      specVoteScore ["aaa", "aaa", "aaa", "john@x.com"] "email" "john@x.com" := by
  constructor
  · decide
  · decide

/-- The helper `dictAdd` never changes the key list. -/
theorem dictAdd_keys (k : String) (v : Nat) :
    ∀ d : List (String × Nat), (dictAdd k v d).map Prod.fst = d.map Prod.fst := by
  intro d
  induction d with
  | nil => rfl
  | cons hd tl ih =>
    simp only [dictAdd]
    split_ifs with h
    · simp
    · simp [ih]

/-- The helper `dictAdd` adds to the first entry of its key. -/
theorem dictAdd_lookup_self (k : String) (v : Nat) :
    ∀ d : List (String × Nat), (dictAdd k v d).lookup k = (d.lookup k).map (· + v) := by
  intro d
  induction d with
  | nil => rfl
  | cons hd tl ih =>
    simp only [dictAdd]
    split_ifs with h
    · subst h
      simp [List.lookup]
    · have hne : (k == hd.1) = false := beq_eq_false_iff_ne.mpr (fun he => h he.symm)
      cases hd with
      | mk k2 v2 =>
        simp only [List.lookup, hne]
        exact ih

/-- The helper `dictAdd` leaves other keys alone. -/
theorem dictAdd_lookup_other (k : String) (v : Nat) (c : String) (hck : c ≠ k) :
    ∀ d : List (String × Nat), (dictAdd k v d).lookup c = d.lookup c := by
  intro d
  induction d with
  | nil => rfl
  | cons hd tl ih =>
    simp only [dictAdd]
    split_ifs with h
    · subst h
      have hne : (c == hd.1) = false := beq_eq_false_iff_ne.mpr hck
      cases hd with
      | mk k2 v2 => simp [List.lookup, hne]
    · cases hd with
      | mk k2 v2 =>
        simp only [List.lookup]
        cases hc2 : (c == k2)
        · simpa using ih
        · simp

/-- A key is absent from the lookup exactly when it is absent from the key
list. -/
theorem lookup_none_iff (k : String) :
    ∀ d : List (String × Nat), d.lookup k = none ↔ k ∉ d.map Prod.fst := by
  intro d
  induction d with
  | nil => simp [List.lookup]
  | cons hd tl ih =>
    cases hd with
    | mk k2 v2 =>
      simp only [List.lookup, List.map, List.mem_cons]
      cases hc : (k == k2)
      · have : k ≠ k2 := by simpa using hc
        simp [this, ih]
      · have : k = k2 := by simpa using hc
        simp [this]

/-- Appending a fresh zero entry makes it the lookup result. -/
theorem lookup_append_single (k : String) :
    ∀ d : List (String × Nat), k ∉ d.map Prod.fst →
      (d ++ [(k, 0)]).lookup k = some 0 := by
  intro d
  induction d with
  | nil => simp [List.lookup]
  | cons hd tl ih =>
    intro hnotin
    cases hd with
    | mk k2 v2 =>
      have hk2 : k ≠ k2 := by
        intro he
        exact hnotin (by simp [he])
      have hne : (k == k2) = false := beq_eq_false_iff_ne.mpr hk2
      simp only [List.cons_append, List.lookup, hne]
      exact ih (fun hm => hnotin (by simp [hm]))

/-- The helper `dictInsertZero` gives the key its current value or zero. -/
theorem dictInsertZero_lookup_self (d : List (String × Nat)) (k : String) :
    (dictInsertZero d k).lookup k = some ((d.lookup k).getD 0) := by
  unfold dictInsertZero
  split_ifs with h
  · cases hl : d.lookup k with
    | none => rw [hl] at h; simp at h
    | some w => simp [hl]
  · have hl : d.lookup k = none := by
      cases hl : d.lookup k with
      | none => rfl
      | some w => rw [hl] at h; simp at h
    rw [hl]
    exact lookup_append_single k d ((lookup_none_iff k d).mp hl)

/-- Appending an entry with another key does not change a lookup. -/
theorem lookup_append_single_other (k c : String) (hck : c ≠ k) :
    ∀ d : List (String × Nat), (d ++ [(k, 0)]).lookup c = d.lookup c := by
  intro d
  induction d with
  | nil =>
    have hne : (c == k) = false := beq_eq_false_iff_ne.mpr hck
    simp [List.lookup, hne]
  | cons hd tl ih =>
    cases hd with
    | mk k2 v2 =>
      simp only [List.cons_append, List.lookup]
      cases hc2 : (c == k2)
      · simpa using ih
      · simp

/-- The helper `dictInsertZero` leaves other keys alone. -/
theorem dictInsertZero_lookup_other (d : List (String × Nat)) (k c : String)
    (hck : c ≠ k) : (dictInsertZero d k).lookup c = d.lookup c := by
  unfold dictInsertZero
  split_ifs with h
  · rfl
  · exact lookup_append_single_other k c hck d

/-- Lookup closed form of the voting loop: starting from any accumulator,
each remaining occurrence of a candidate adds its full pool count plus the
validity bonus once. -/
theorem voteScoresLoop_lookup (pool : List String) (ft : String) :
    ∀ (rest : List String) (acc : List (String × Nat)) (c : String),
      (voteScoresLoop pool ft rest acc).lookup c =
        if (acc.lookup c).isSome ∨ c ∈ rest then
          some ((acc.lookup c).getD 0 +
            rest.count c * (pool.count c + (if validate_field_format c ft then 5 else 0)))
        else none := by
  intro rest
  induction rest with
  | nil =>
    intro acc c
    simp only [voteScoresLoop, List.not_mem_nil, or_false, List.count_nil]
    cases hl : acc.lookup c with
    | none => simp
    | some w => simp
  | cons x rest ih =>
    intro acc c
    simp only [voteScoresLoop]
    rw [ih]
    by_cases hcx : c = x
    · subst hcx
      have h1 : (dictInsertZero acc c).lookup c = some ((acc.lookup c).getD 0) :=
        dictInsertZero_lookup_self acc c
      have h2 : (dictAdd c (pool.count c) (dictInsertZero acc c)).lookup c =
          some ((acc.lookup c).getD 0 + pool.count c) := by
        rw [dictAdd_lookup_self, h1]
        rfl
      by_cases hval : validate_field_format c ft = true
      · simp only [if_pos hval]
        have h3 : (dictAdd c 5 (dictAdd c (pool.count c) (dictInsertZero acc c))).lookup c =
            some ((acc.lookup c).getD 0 + pool.count c + 5) := by
          rw [dictAdd_lookup_self, h2]
          rfl
        rw [h3]
        simp only [Option.isSome_some, true_or, if_true, Option.getD_some]
        rw [if_pos (Or.inr (List.mem_cons_self c rest)), List.count_cons_self]
        congr 1
        ring
      · simp only [if_neg hval]
        rw [h2]
        simp only [Option.isSome_some, true_or, if_true, Option.getD_some]
        rw [if_pos (Or.inr (List.mem_cons_self c rest)), List.count_cons_self]
        congr 1
        ring
    · have hx1 : (dictInsertZero acc x).lookup c = acc.lookup c :=
        dictInsertZero_lookup_other acc x c hcx
      have hx2 : (dictAdd x (pool.count x) (dictInsertZero acc x)).lookup c = acc.lookup c := by
        rw [dictAdd_lookup_other x _ c hcx, hx1]
      have hx3 : (if validate_field_format x ft then
            dictAdd x 5 (dictAdd x (pool.count x) (dictInsertZero acc x))
          else dictAdd x (pool.count x) (dictInsertZero acc x)).lookup c = acc.lookup c := by
        split_ifs
        · rw [dictAdd_lookup_other x _ c hcx, hx2]
        · exact hx2
      rw [hx3]
      have hcount : (x :: rest).count c = rest.count c := List.count_cons_of_ne hcx rest
      have hmem : (c ∈ x :: rest) ↔ (c ∈ rest) := by simp [List.mem_cons, hcx]
      rw [hcount]
      by_cases hcond : (acc.lookup c).isSome = true ∨ c ∈ rest
      · have hcond2 : (acc.lookup c).isSome = true ∨ c ∈ x :: rest := by
          rcases hcond with h | h
          · exact Or.inl h
          · exact Or.inr (hmem.mpr h)
        rw [if_pos hcond, if_pos hcond2]
      · have hcond2 : ¬((acc.lookup c).isSome = true ∨ c ∈ x :: rest) := by
          intro hk
          rcases hk with h | h
          · exact hcond (Or.inl h)
          · exact hcond (Or.inr (hmem.mp h))
        rw [if_neg hcond, if_neg hcond2]

/-- The helper `dictInsertZero` preserves key distinctness. -/
theorem dictInsertZero_nodup (d : List (String × Nat)) (k : String)
    (h : (d.map Prod.fst).Nodup) : ((dictInsertZero d k).map Prod.fst).Nodup := by
  unfold dictInsertZero
  split_ifs with hs
  · exact h
  · have hl : d.lookup k = none := by
      cases hl : d.lookup k with
      | none => rfl
      | some w => rw [hl] at hs; simp at hs
    have hnotin : k ∉ d.map Prod.fst := (lookup_none_iff k d).mp hl
    simp only [List.map_append, List.map_cons, List.map_nil]
    simp [List.nodup_append, h, hnotin]

/-- The voting loop preserves key distinctness. -/
theorem voteScoresLoop_keys_nodup (pool : List String) (ft : String) :
    ∀ (rest : List String) (acc : List (String × Nat)),
      (acc.map Prod.fst).Nodup →
      ((voteScoresLoop pool ft rest acc).map Prod.fst).Nodup := by
  intro rest
  induction rest with
  | nil => intro acc h; exact h
  | cons x rest ih =>
    intro acc h
    simp only [voteScoresLoop]
    apply ih
    have h1 := dictInsertZero_nodup acc x h
    have h2 : ((dictAdd x (pool.count x) (dictInsertZero acc x)).map Prod.fst).Nodup := by
      rw [dictAdd_keys]
      exact h1
    split_ifs
    · rw [dictAdd_keys]
      exact h2
    · exact h2

/-- With distinct keys, membership determines the lookup. -/
theorem lookup_of_mem_nodup :
    ∀ (d : List (String × Nat)), (d.map Prod.fst).Nodup →
      ∀ k v, (k, v) ∈ d → d.lookup k = some v := by
  intro d
  induction d with
  | nil => intro _ k v hm; cases hm
  | cons hd tl ih =>
    intro hnd k v hm
    cases hd with
    | mk k2 v2 =>
      rcases List.mem_cons.mp hm with h | h
      · injection h with ha hb
        subst ha
        subst hb
        simp [List.lookup]
      · have hk2 : k ≠ k2 := by
          intro he
          subst he
          have : k ∈ tl.map Prod.fst := List.mem_map.mpr ⟨(k, v), h, rfl⟩
          simp only [List.map_cons, List.nodup_cons] at hnd
          exact hnd.1 this
        have hne : (k == k2) = false := beq_eq_false_iff_ne.mpr hk2
        simp only [List.lookup, hne]
        exact ih (by simp only [List.map_cons, List.nodup_cons] at hnd; exact hnd.2) k v h

/-- The lookup pins down membership. -/
theorem mem_of_lookup_eq_some :
    ∀ (d : List (String × Nat)) (k : String) (v : Nat),
      d.lookup k = some v → (k, v) ∈ d := by
  intro d
  induction d with
  | nil => intro k v h; simp [List.lookup] at h
  | cons hd tl ih =>
    intro k v h
    cases hd with
    | mk k2 v2 =>
      simp only [List.lookup] at h
      cases hc : (k == k2)
      · rw [hc] at h
        exact List.mem_cons.mpr (Or.inr (ih k v h))
      · rw [hc] at h
        injection h with hv
        have hk : k = k2 := by simpa using hc
        subst hk
        subst hv
        exact List.mem_cons_self _ _

/-- The final score dict of `_vote_on_candidates`: each pool member is
scored `count * (count + bonus)` — the loop body runs once per occurrence —
and nothing else is scored. -/
theorem voteScores_final (candidates : List String) (field_type : String) :
    ∀ c, (voteScoresLoop candidates field_type candidates []).lookup c =
      if c ∈ candidates then some (codeVoteScore candidates field_type c) else none := by
  intro c
  rw [voteScoresLoop_lookup]
  simp [List.lookup, codeVoteScore]

/-- C9, amended: `_vote_on_candidates` returns a candidate attaining the
maximal ACCUMULATED score `count * (count + 5 bonus)` (the loop adds the
occurrence count and the validity bonus once per occurrence, squaring the
frequency term), not the claimed `count + 5 bonus`. -/
theorem C9_vote_highest_accumulated_score (candidates : List String)
    (field_type : String) (h : candidates ≠ []) :
    vote_on_candidates candidates field_type ∈ candidates ∧
    ∀ c ∈ candidates,
      codeVoteScore candidates field_type c ≤
        codeVoteScore candidates field_type (vote_on_candidates candidates field_type) := by
  have hlk := voteScores_final candidates field_type
  have hnodup : ((voteScoresLoop candidates field_type candidates []).map Prod.fst).Nodup :=
    voteScoresLoop_keys_nodup _ _ _ _ (by simp)
  have hentne : voteScoresLoop candidates field_type candidates [] ≠ [] := by
    intro he
    cases hcand : candidates with
    | nil => exact h hcand
    | cons x xs =>
      have hx := hlk x
      rw [he] at hx
      rw [if_pos (by rw [hcand]; exact List.mem_cons_self x xs)] at hx
      simp [List.lookup] at hx
  have hmem := pyMaxEntry_mem _ hentne
  have hmax := pyMaxEntry_max _ hentne
  have hlkm : (voteScoresLoop candidates field_type candidates []).lookup
      (pyMaxEntry (voteScoresLoop candidates field_type candidates [])).1 =
      some (pyMaxEntry (voteScoresLoop candidates field_type candidates [])).2 :=
    lookup_of_mem_nodup _ hnodup _ _ (by simpa using hmem)
  have h1 : (pyMaxEntry (voteScoresLoop candidates field_type candidates [])).1 ∈ candidates ∧
      (pyMaxEntry (voteScoresLoop candidates field_type candidates [])).2 =
        codeVoteScore candidates field_type
          (pyMaxEntry (voteScoresLoop candidates field_type candidates [])).1 := by
    have hx := hlk (pyMaxEntry (voteScoresLoop candidates field_type candidates [])).1
    rw [hlkm] at hx
    by_cases hc : (pyMaxEntry (voteScoresLoop candidates field_type candidates [])).1 ∈ candidates
    · rw [if_pos hc] at hx
      injection hx with hx2
      exact ⟨hc, hx2⟩
    · rw [if_neg hc] at hx
      cases hx
  have hvote : vote_on_candidates candidates field_type =
      (pyMaxEntry (voteScoresLoop candidates field_type candidates [])).1 := by
    unfold vote_on_candidates
    rw [if_neg (by simpa [List.isEmpty_iff] using h)]
  constructor
  · rw [hvote]
    exact h1.1
  · intro c hc
    have hce : (c, codeVoteScore candidates field_type c) ∈
        voteScoresLoop candidates field_type candidates [] := by
      apply mem_of_lookup_eq_some
      rw [hlk c, if_pos hc]
    have hle := hmax _ hce
    rw [hvote, ← h1.2]
    exact hle

/-- Witness for the amended C9 on a concrete pool. -/
theorem C9_vote_highest_accumulated_score_witness :
    vote_on_candidates ["a", "b", "a"] "email" ∈ (["a", "b", "a"] : List String) ∧
    ∀ c ∈ (["a", "b", "a"] : List String),
      codeVoteScore ["a", "b", "a"] "email" c ≤
        codeVoteScore ["a", "b", "a"] "email" (vote_on_candidates ["a", "b", "a"] "email") :=
  C9_vote_highest_accumulated_score ["a", "b", "a"] "email" (by decide)

end Spec2Proof
